import Mathlib

/-!
Shallow embedding of the financeATP event-sourced ledger (Rust) and proofs
about it.  Rust `rust_decimal::Decimal` values are modelled as a mantissa
together with a decimal scale; `Uuid` values are modelled as `Nat`;
timestamps as `Int`; the Postgres store as explicit in-memory tables
threaded through the functions that the Rust code runs inside one
transaction.  Numeric comparisons on decimals are modelled by
cross-multiplied mantissa comparisons over `Int`, which agree with the
rational value order (`Decimal.le_iff`, `Decimal.lt_iff`) and evaluate
inside the kernel.
-/

set_option autoImplicit false

namespace FinanceATP

/-- Model of `rust_decimal::Decimal` (src/src/domain/amount.rs uses it for all
money): a signed mantissa and a decimal scale; the denoted value is
`mant / 10 ^ scale`.  The 96-bit mantissa bound is not modelled: every
computation in the verified paths stays far below it. -/
structure Decimal where
  mant : Int
  scale : Nat
deriving DecidableEq, Repr

/-- Powers of ten over `Int`, defined structurally so that concrete
evaluations reduce. -/
def ipow10 : Nat → Int
  | 0 => 1
  | n + 1 => 10 * ipow10 n

theorem ipow10_eq (n : Nat) : ipow10 n = (10 : Int) ^ n := by
  induction n with
  | zero => rfl
  | succ n ih => rw [ipow10, ih, pow_succ]; ring

theorem ipow10_pos (n : Nat) : 0 < ipow10 n := by
  rw [ipow10_eq]
  positivity

/-- Rational value denoted by a `Decimal`. -/
def Decimal.toRat (d : Decimal) : Rat :=
  (d.mant : Rat) / (10 : Rat) ^ d.scale

/-- Model of `Decimal::ZERO`. -/
def Decimal.zero : Decimal := ⟨0, 0⟩

/-- Numeric order on decimals, as `rust_decimal` compares values. -/
def Decimal.le (a b : Decimal) : Prop :=
  a.mant * ipow10 b.scale ≤ b.mant * ipow10 a.scale

/-- Strict numeric order on decimals. -/
def Decimal.lt (a b : Decimal) : Prop :=
  a.mant * ipow10 b.scale < b.mant * ipow10 a.scale

instance Decimal.decLe (a b : Decimal) : Decidable (Decimal.le a b) :=
  inferInstanceAs (Decidable (_ ≤ _))

instance Decimal.decLt (a b : Decimal) : Decidable (Decimal.lt a b) :=
  inferInstanceAs (Decidable (_ < _))

/-- Model of `rust_decimal` addition: rescale both operands to the larger
scale and add mantissas. -/
def Decimal.add (a b : Decimal) : Decimal :=
  let s := max a.scale b.scale
  ⟨a.mant * ipow10 (s - a.scale) + b.mant * ipow10 (s - b.scale), s⟩

/-- Model of `rust_decimal` subtraction: rescale both operands to the larger
scale and subtract mantissas. -/
def Decimal.sub (a b : Decimal) : Decimal :=
  let s := max a.scale b.scale
  ⟨a.mant * ipow10 (s - a.scale) - b.mant * ipow10 (s - b.scale), s⟩

theorem Decimal.toRat_zero : Decimal.zero.toRat = 0 := by
  simp [Decimal.toRat, Decimal.zero]

theorem rat_pow_ten_pos (n : Nat) : (0 : Rat) < (10 : Rat) ^ n := by
  positivity

theorem Decimal.le_iff (a b : Decimal) : Decimal.le a b ↔ a.toRat ≤ b.toRat := by
  unfold Decimal.le Decimal.toRat
  rw [div_le_div_iff₀ (rat_pow_ten_pos a.scale) (rat_pow_ten_pos b.scale)]
  rw [ipow10_eq, ipow10_eq]
  constructor
  · intro h
    calc (a.mant : Rat) * (10 : Rat) ^ b.scale
        = ((a.mant * (10 : Int) ^ b.scale : Int) : Rat) := by push_cast; ring
      _ ≤ ((b.mant * (10 : Int) ^ a.scale : Int) : Rat) := by exact_mod_cast h
      _ = (b.mant : Rat) * (10 : Rat) ^ a.scale := by push_cast; ring
  · intro h
    have h2 : ((a.mant * (10 : Int) ^ b.scale : Int) : Rat) ≤
        ((b.mant * (10 : Int) ^ a.scale : Int) : Rat) := by
      push_cast
      calc (a.mant : Rat) * (10 : Rat) ^ b.scale ≤ (b.mant : Rat) * (10 : Rat) ^ a.scale := h
        _ = (b.mant : Rat) * (10 : Rat) ^ a.scale := rfl
    exact_mod_cast h2

theorem Decimal.lt_iff (a b : Decimal) : Decimal.lt a b ↔ a.toRat < b.toRat := by
  unfold Decimal.lt
  constructor
  · intro h
    by_contra hc
    push_neg at hc
    exact absurd ((Decimal.le_iff b a).mpr hc) (not_le.mpr h)
  · intro h
    by_contra hc
    exact absurd ((Decimal.le_iff b a).mp (not_lt.mp hc)) (not_le.mpr h)

theorem Decimal.toRat_add (a b : Decimal) : (a.add b).toRat = a.toRat + b.toRat := by
  unfold Decimal.add Decimal.toRat
  have ha : a.scale ≤ max a.scale b.scale := le_max_left _ _
  have hb : b.scale ≤ max a.scale b.scale := le_max_right _ _
  have pow_ne : ∀ n : Nat, ((10 : Rat) ^ n) ≠ 0 := fun n => pow_ne_zero n (by norm_num)
  have key : ∀ (m : Int) (s t : Nat), s ≤ t →
      ((m * (10 : Int) ^ (t - s) : Int) : Rat) / (10 : Rat) ^ t = (m : Rat) / (10 : Rat) ^ s := by
    intro m s t hst
    have ht : (10 : Rat) ^ t = (10 : Rat) ^ (t - s) * (10 : Rat) ^ s := by
      rw [← pow_add, Nat.sub_add_cancel hst]
    push_cast
    rw [ht, mul_comm (m : Rat) ((10 : Rat) ^ (t - s)),
      mul_div_mul_left _ _ (pow_ne (t - s))]
  simp only [ipow10_eq]
  push_cast
  rw [add_div]
  rw [show ((a.mant : Rat) * (10 : Rat) ^ (max a.scale b.scale - a.scale)) / (10 : Rat) ^ (max a.scale b.scale) = ((a.mant * (10 : Int) ^ (max a.scale b.scale - a.scale) : Int) : Rat) / (10 : Rat) ^ (max a.scale b.scale) by push_cast; ring_nf]
  rw [show ((b.mant : Rat) * (10 : Rat) ^ (max a.scale b.scale - b.scale)) / (10 : Rat) ^ (max a.scale b.scale) = ((b.mant * (10 : Int) ^ (max a.scale b.scale - b.scale) : Int) : Rat) / (10 : Rat) ^ (max a.scale b.scale) by push_cast; ring_nf]
  rw [key a.mant a.scale _ ha, key b.mant b.scale _ hb]

theorem Decimal.toRat_sub (a b : Decimal) : (a.sub b).toRat = a.toRat - b.toRat := by
  have h : a.sub b = a.add ⟨-b.mant, b.scale⟩ := by
    unfold Decimal.sub Decimal.add
    simp [sub_eq_add_neg, neg_mul]
  rw [h, Decimal.toRat_add]
  have h2 : Decimal.toRat ⟨-b.mant, b.scale⟩ = -b.toRat := by
    unfold Decimal.toRat
    push_cast
    ring
  rw [h2]
  ring

/-- Model of `AmountError` (src/src/domain/amount.rs). -/
inductive AmountError where
  | notPositive (value : Decimal)
  | tooManyDecimals (scale : Nat)
  | overflow
  | parseError (msg : String)
deriving DecidableEq, Repr

/-- The `MAX_AMOUNT` constant, `Decimal::from_str("1000000000000")`. -/
def maxAmount : Decimal := ⟨1000000000000, 0⟩

/-- The `MAX_SCALE` constant (8). -/
def maxScale : Nat := 8

/-- Model of the `Amount` newtype: a `Decimal` wrapped after validation. -/
structure Amount where
  val : Decimal
deriving DecidableEq, Repr

/-- Model of `Amount::value`. -/
def Amount.value (a : Amount) : Decimal := a.val

/-- Model of `Amount::new` (src/src/domain/amount.rs lines 61-79): positivity,
scale and maximum checks, in that order. -/
def Amount.new (value : Decimal) : Except AmountError Amount :=
  if Decimal.le value Decimal.zero then .error (.notPositive value)
  else if maxScale < value.scale then .error (.tooManyDecimals value.scale)
  else if Decimal.lt maxAmount value then .error .overflow
  else .ok ⟨value⟩

/-- Model of the `Balance` newtype. -/
structure Balance where
  val : Decimal
deriving DecidableEq, Repr

/-- Model of `Balance::new`: non-negative and at most `MAX_AMOUNT`. -/
def Balance.new (value : Decimal) : Except AmountError Balance :=
  if Decimal.lt value Decimal.zero then .error (.notPositive value)
  else if Decimal.lt maxAmount value then .error .overflow
  else .ok ⟨value⟩

/-- Model of `Balance::zero`. -/
def Balance.zero : Balance := ⟨Decimal.zero⟩

/-- Model of `Balance::from_decimal_unchecked`. -/
def Balance.from_decimal_unchecked (value : Decimal) : Balance := ⟨value⟩

/-- Model of `Balance::value`. -/
def Balance.value (b : Balance) : Decimal := b.val

/-- Model of `Balance::is_sufficient_for`: `self.0 >= amount.value()`. -/
def Balance.is_sufficient_for (b : Balance) (amount : Amount) : Bool :=
  decide (Decimal.le amount.value b.val)

/-- Model of `Balance::credit`: validate `self.0 + amount.value()`. -/
def Balance.credit (b : Balance) (amount : Amount) : Except AmountError Balance :=
  Balance.new (b.val.add amount.value)

/-- Model of `Balance::debit`: validate `self.0 - amount.value()`. -/
def Balance.debit (b : Balance) (amount : Amount) : Except AmountError Balance :=
  Balance.new (b.val.sub amount.value)

theorem maxAmount_toRat : maxAmount.toRat = 1000000000000 := by
  norm_num [maxAmount, Decimal.toRat]

theorem Decimal.le_zero_iff (d : Decimal) : Decimal.le d Decimal.zero ↔ d.toRat ≤ 0 := by
  rw [Decimal.le_iff, Decimal.toRat_zero]

theorem Decimal.zero_le_iff (d : Decimal) : Decimal.le Decimal.zero d ↔ 0 ≤ d.toRat := by
  rw [Decimal.le_iff, Decimal.toRat_zero]

theorem Decimal.lt_zero_iff (d : Decimal) : Decimal.lt d Decimal.zero ↔ d.toRat < 0 := by
  rw [Decimal.lt_iff, Decimal.toRat_zero]

theorem Decimal.max_lt_iff (d : Decimal) : Decimal.lt maxAmount d ↔ maxAmount.toRat < d.toRat :=
  Decimal.lt_iff maxAmount d

/-- Validity domain of `Amount::new`, shared by several proofs. -/
theorem amount_new_ok_iff (d : Decimal) :
    Amount.new d = .ok ⟨d⟩ ↔ (0 < d.toRat ∧ d.scale ≤ maxScale ∧ d.toRat ≤ maxAmount.toRat) := by
  unfold Amount.new
  simp only [Decimal.le_zero_iff, Decimal.max_lt_iff]
  constructor
  · intro h
    split_ifs at h with h1 h2 h3
    exact ⟨not_le.mp h1, by omega, not_lt.mp h3⟩
  · rintro ⟨h1, h2, h3⟩
    rw [if_neg (not_le.mpr h1), if_neg (not_lt.mpr h2), if_neg (not_lt.mpr h3)]

theorem balance_new_ok_iff (d : Decimal) :
    Balance.new d = .ok ⟨d⟩ ↔ (0 ≤ d.toRat ∧ d.toRat ≤ maxAmount.toRat) := by
  unfold Balance.new
  simp only [Decimal.lt_zero_iff, Decimal.max_lt_iff]
  constructor
  · intro h
    split_ifs at h with h1 h2
    exact ⟨le_of_not_gt h1, le_of_not_gt h2⟩
  · rintro ⟨h1, h2⟩
    rw [if_neg (not_lt.mpr h1), if_neg (not_lt.mpr h2)]

theorem balance_new_isOk_cases (d : Decimal) :
    (0 ≤ d.toRat ∧ d.toRat ≤ maxAmount.toRat ∧ Balance.new d = .ok ⟨d⟩) ∨
    (d.toRat < 0 ∧ Balance.new d = .error (.notPositive d)) ∨
    (maxAmount.toRat < d.toRat ∧ Balance.new d = .error .overflow) := by
  unfold Balance.new
  simp only [Decimal.lt_zero_iff, Decimal.max_lt_iff]
  by_cases h1 : d.toRat < 0
  · right; left; exact ⟨h1, by rw [if_pos h1]⟩
  · by_cases h2 : maxAmount.toRat < d.toRat
    · right; right; exact ⟨h2, by rw [if_neg h1, if_pos h2]⟩
    · left; exact ⟨le_of_not_gt h1, le_of_not_gt h2, by rw [if_neg h1, if_neg h2]⟩

/-- Claim C7: `Amount::new(v)` succeeds exactly when `v > 0`, `v` has at most
8 decimal places and `v ≤ 10^12`, and otherwise fails with `NotPositive`,
`TooManyDecimals`, or `Overflow` respectively, so no `Amount` outside this
domain can be constructed through the validating factory. -/
theorem C7_amount_new_characterization (d : Decimal) :
    (Amount.new d = .ok ⟨d⟩ ↔ (0 < d.toRat ∧ d.scale ≤ 8 ∧ d.toRat ≤ 1000000000000)) ∧
    (d.toRat ≤ 0 → Amount.new d = .error (.notPositive d)) ∧
    (0 < d.toRat → 8 < d.scale → Amount.new d = .error (.tooManyDecimals d.scale)) ∧
    (0 < d.toRat → d.scale ≤ 8 → 1000000000000 < d.toRat → Amount.new d = .error .overflow) := by
  refine ⟨?_, ?_, ?_, ?_⟩
  · rw [amount_new_ok_iff, maxAmount_toRat]
    rfl
  · intro h
    unfold Amount.new
    rw [if_pos ((Decimal.le_zero_iff d).mpr h)]
  · intro h0 hs
    unfold Amount.new
    rw [if_neg (fun hc => absurd ((Decimal.le_zero_iff d).mp hc) (not_le.mpr h0)),
      if_pos (show maxScale < d.scale from hs)]
  · intro h0 hs hm
    unfold Amount.new
    rw [if_neg (fun hc => absurd ((Decimal.le_zero_iff d).mp hc) (not_le.mpr h0)),
      if_neg (not_lt.mpr (show d.scale ≤ maxScale from hs)),
      if_pos ((Decimal.max_lt_iff d).mpr (by rw [maxAmount_toRat]; exact hm))]

/-- Witness for Claim C7: each branch of the characterization exercised at a
concrete decimal. -/
theorem C7_witness :
    Amount.new ⟨100, 0⟩ = .ok ⟨⟨100, 0⟩⟩ ∧
    Amount.new ⟨-5, 0⟩ = .error (.notPositive ⟨-5, 0⟩) ∧
    Amount.new ⟨123456789, 9⟩ = .error (.tooManyDecimals 9) ∧
    Amount.new ⟨1000000000001, 0⟩ = .error .overflow :=
  ⟨(C7_amount_new_characterization ⟨100, 0⟩).1.mpr (by refine ⟨?_, ?_, ?_⟩ <;> norm_num [Decimal.toRat]),
   (C7_amount_new_characterization ⟨-5, 0⟩).2.1 (by norm_num [Decimal.toRat]),
   (C7_amount_new_characterization ⟨123456789, 9⟩).2.2.1 (by norm_num [Decimal.toRat]) (by norm_num),
   (C7_amount_new_characterization ⟨1000000000001, 0⟩).2.2.2 (by norm_num [Decimal.toRat]) (by norm_num) (by norm_num [Decimal.toRat])⟩

/-! ## Account aggregate (src/src/aggregate/account.rs) -/

/-- Model of `AccountStatus`. -/
inductive AccountStatus where
  | active
  | frozen
deriving DecidableEq, Repr

/-- Model of `AppError` (src/src/error.rs), restricted to the variants the
verified paths produce. -/
inductive AppError where
  | invalidRequest (msg : String)
  | insufficientBalance
  | accountFrozen
  | unauthorizedTransfer
  | userNotFound (who : String)
  | accountNotFound (who : String)
  | idempotencyConflict
  | versionConflict
  | internal (msg : String)
deriving DecidableEq, Repr

/-- Model of `AccountEvent` (src/src/domain/events.rs).  `Uuid` fields are
`Nat`, `DateTime<Utc>` fields are `Int`. -/
inductive AccountEvent where
  | accountCreated (account_id user_id : Nat) (account_type : String) (created_at : Int)
  | moneyCredited (account_id : Nat) (amount : Decimal) (transfer_id : Nat)
      (description : String) (credited_at : Int)
  | moneyDebited (account_id : Nat) (amount : Decimal) (transfer_id : Nat)
      (description : String) (debited_at : Int)
  | accountFrozen (account_id : Nat) (reason : String) (frozen_at : Int)
  | accountUnfrozen (account_id : Nat) (unfrozen_at : Int)
deriving DecidableEq, Repr

/-- Model of `AccountEvent::event_type`. -/
def AccountEvent.event_type : AccountEvent → String
  | .accountCreated .. => "AccountCreated"
  | .moneyCredited .. => "MoneyCredited"
  | .moneyDebited .. => "MoneyDebited"
  | .accountFrozen .. => "AccountFrozen"
  | .accountUnfrozen .. => "AccountUnfrozen"

/-- Model of the `Account` aggregate state. -/
structure Account where
  id : Nat
  user_id : Nat
  account_type : String
  balance : Balance
  status : AccountStatus
  version : Int
  created_at : Option Int
deriving DecidableEq, Repr

/-- Model of `Account::default` (`Uuid::nil` becomes 0). -/
def Account.default : Account :=
  ⟨0, 0, "", Balance.zero, .active, 0, none⟩

/-- Model of `Account::from_db_state`: non-negative balances go through
`Balance::new` with a fallback to `Balance::zero()`, negative balances use
the unchecked constructor. -/
def Account.from_db_state (id user_id : Nat) (account_type : String)
    (balance : Decimal) (version : Int) : Account :=
  let balance_value :=
    if Decimal.le Decimal.zero balance then
      match Balance.new balance with
      | .ok b => b
      | .error _ => Balance.zero
    else Balance.from_decimal_unchecked balance
  ⟨id, user_id, account_type, balance_value, .active, version, none⟩

/-- Model of `Account::debit`: frozen check, then sufficiency check, then the
`MoneyDebited` event.  The Rust method takes `&self` by shared reference, so
its embedding is a pure function of the account that returns only the event;
it cannot change the account. -/
def Account.debit (a : Account) (amount : Amount) (transfer_id : Nat)
    (description : String) (now : Int) : Except AppError AccountEvent :=
  if a.status = .frozen then .error .accountFrozen
  else if a.balance.is_sufficient_for amount = false then .error .insufficientBalance
  else .ok (.moneyDebited a.id amount.value transfer_id description now)

/-- Model of `Account::credit`: frozen check, then the `MoneyCredited`
event. -/
def Account.credit (a : Account) (amount : Amount) (transfer_id : Nat)
    (description : String) (now : Int) : Except AppError AccountEvent :=
  if a.status = .frozen then .error .accountFrozen
  else .ok (.moneyCredited a.id amount.value transfer_id description now)

/-- Model of `Account::apply` (src/src/aggregate/account.rs lines 262-337):
event-specific state change, invalid or out-of-range money amounts are
logged and skipped, and `version` always increments by 1. -/
def Account.apply (a : Account) (event : AccountEvent) : Account :=
  let a1 :=
    match event with
    | .accountCreated account_id user_id account_type created_at =>
      { a with id := account_id, user_id := user_id, account_type := account_type,
               balance := Balance.zero, status := .active, created_at := some created_at }
    | .moneyCredited _ amount _ _ _ =>
      match Amount.new amount with
      | .ok amt =>
        match a.balance.credit amt with
        | .ok new_balance => { a with balance := new_balance }
        | .error _ => a
      | .error _ => a
    | .moneyDebited _ amount _ _ _ =>
      match Amount.new amount with
      | .ok amt =>
        match a.balance.debit amt with
        | .ok new_balance => { a with balance := new_balance }
        | .error _ => a
      | .error _ => a
    | .accountFrozen _ _ _ => { a with status := .frozen }
    | .accountUnfrozen _ _ => { a with status := .active }
  { a1 with version := a1.version + 1 }

/-- Replay of a whole event list, as `load_aggregate` folds `apply`. -/
def Account.applyList (a : Account) (events : List AccountEvent) : Account :=
  events.foldl Account.apply a

theorem Account.apply_version (a : Account) (e : AccountEvent) :
    (a.apply e).version = a.version + 1 := by
  cases e with
  | accountCreated _ _ _ _ => rfl
  | accountFrozen _ _ _ => rfl
  | accountUnfrozen _ _ => rfl
  | moneyCredited _ amount _ _ _ =>
    unfold Account.apply
    cases hA : Amount.new amount with
    | error _ => simp [hA]
    | ok amt =>
      cases hB : a.balance.credit amt with
      | error _ => simp [hA, hB]
      | ok nb => simp [hA, hB]
  | moneyDebited _ amount _ _ _ =>
    unfold Account.apply
    cases hA : Amount.new amount with
    | error _ => simp [hA]
    | ok amt =>
      cases hB : a.balance.debit amt with
      | error _ => simp [hA, hB]
      | ok nb => simp [hA, hB]

theorem Account.applyList_version (S : List AccountEvent) (a : Account) :
    (a.applyList S).version = a.version + S.length := by
  induction S generalizing a with
  | nil => simp [Account.applyList]
  | cons e rest ih =>
    show ((a.apply e).applyList rest).version = a.version + (e :: rest).length
    rw [ih, Account.apply_version]
    simp
    omega

/-- Claim C2: `debit` fails `AccountFrozen` on a frozen account, fails
`InsufficientBalance` when `balance < amount`, and otherwise yields the
`MoneyDebited` event carrying the amount; being a `&self` method (a pure
function here) it leaves the account itself unchanged in all three cases. -/
theorem C2_account_debit_spec (a : Account) (amount : Amount) (transfer_id : Nat)
    (description : String) (now : Int) :
    (a.status = .frozen →
      a.debit amount transfer_id description now = .error .accountFrozen) ∧
    (a.status ≠ .frozen → a.balance.val.toRat < amount.val.toRat →
      a.debit amount transfer_id description now = .error .insufficientBalance) ∧
    (a.status ≠ .frozen → amount.val.toRat ≤ a.balance.val.toRat →
      a.debit amount transfer_id description now =
        .ok (.moneyDebited a.id amount.val transfer_id description now)) := by
  refine ⟨?_, ?_, ?_⟩
  · intro h
    unfold Account.debit
    rw [if_pos h]
  · intro h hlt
    unfold Account.debit
    rw [if_neg h, if_pos]
    simp only [Balance.is_sufficient_for, Amount.value, decide_eq_false_iff_not,
      Decimal.le_iff]
    exact not_le.mpr hlt
  · intro h hle
    unfold Account.debit
    rw [if_neg h, if_neg]
    · rfl
    · simp only [Balance.is_sufficient_for, Amount.value]
      rw [decide_eq_true ((Decimal.le_iff _ _).mpr hle)]
      simp

/-- Witness for Claim C2: the three branches at concrete accounts. -/
theorem C2_witness :
    Account.debit ⟨1, 2, "user_wallet", ⟨⟨50, 0⟩⟩, .frozen, 3, none⟩ ⟨⟨10, 0⟩⟩ 4 "d" 0 =
      .error .accountFrozen ∧
    Account.debit ⟨1, 2, "user_wallet", ⟨⟨50, 0⟩⟩, .active, 3, none⟩ ⟨⟨60, 0⟩⟩ 4 "d" 0 =
      .error .insufficientBalance ∧
    Account.debit ⟨1, 2, "user_wallet", ⟨⟨50, 0⟩⟩, .active, 3, none⟩ ⟨⟨10, 0⟩⟩ 4 "d" 0 =
      .ok (.moneyDebited 1 ⟨10, 0⟩ 4 "d" 0) :=
  ⟨(C2_account_debit_spec ⟨1, 2, "user_wallet", ⟨⟨50, 0⟩⟩, .frozen, 3, none⟩ ⟨⟨10, 0⟩⟩ 4 "d" 0).1 rfl,
   (C2_account_debit_spec ⟨1, 2, "user_wallet", ⟨⟨50, 0⟩⟩, .active, 3, none⟩ ⟨⟨60, 0⟩⟩ 4 "d" 0).2.1
     (by decide) (by norm_num [Decimal.toRat]),
   (C2_account_debit_spec ⟨1, 2, "user_wallet", ⟨⟨50, 0⟩⟩, .active, 3, none⟩ ⟨⟨10, 0⟩⟩ 4 "d" 0).2.2
     (by decide) (by norm_num [Decimal.toRat])⟩

/-- Claim C9: `from_db_state` preserves a negative balance exactly through the
unchecked path, substitutes a zero balance for a non-negative balance above
`10^12`, and preserves in-range non-negative balances exactly. -/
theorem C9_from_db_state_balance (id user_id : Nat) (account_type : String)
    (balance : Decimal) (version : Int) :
    (balance.toRat < 0 →
      (Account.from_db_state id user_id account_type balance version).balance = ⟨balance⟩) ∧
    (0 ≤ balance.toRat → balance.toRat ≤ 1000000000000 →
      (Account.from_db_state id user_id account_type balance version).balance = ⟨balance⟩) ∧
    (0 ≤ balance.toRat → 1000000000000 < balance.toRat →
      (Account.from_db_state id user_id account_type balance version).balance = Balance.zero) := by
  refine ⟨?_, ?_, ?_⟩
  · intro h
    unfold Account.from_db_state
    rw [if_neg (fun hc => absurd ((Decimal.zero_le_iff balance).mp hc) (not_le.mpr h))]
    rfl
  · intro h0 hmax
    unfold Account.from_db_state
    rw [if_pos ((Decimal.zero_le_iff balance).mpr h0)]
    have hok := (balance_new_ok_iff balance).mpr ⟨h0, by rw [maxAmount_toRat]; exact hmax⟩
    rw [hok]
  · intro h0 hmax
    unfold Account.from_db_state
    rw [if_pos ((Decimal.zero_le_iff balance).mpr h0)]
    rcases balance_new_isOk_cases balance with ⟨_, h2, _⟩ | ⟨h1, _⟩ | ⟨_, h2⟩
    · rw [maxAmount_toRat] at h2
      exact absurd h2 (not_le.mpr hmax)
    · exact absurd h1 (not_lt.mpr h0)
    · rw [h2]

/-- Witness for Claim C9: the three branches at concrete balances. -/
theorem C9_witness :
    (Account.from_db_state 1 2 "mint_source" ⟨-700, 0⟩ 5).balance = ⟨⟨-700, 0⟩⟩ ∧
    (Account.from_db_state 1 2 "user_wallet" ⟨700, 0⟩ 5).balance = ⟨⟨700, 0⟩⟩ ∧
    (Account.from_db_state 1 2 "user_wallet" ⟨2000000000000, 0⟩ 5).balance = Balance.zero :=
  ⟨(C9_from_db_state_balance 1 2 "mint_source" ⟨-700, 0⟩ 5).1 (by norm_num [Decimal.toRat]),
   (C9_from_db_state_balance 1 2 "user_wallet" ⟨700, 0⟩ 5).2.1
     (by norm_num [Decimal.toRat]) (by norm_num [Decimal.toRat]),
   (C9_from_db_state_balance 1 2 "user_wallet" ⟨2000000000000, 0⟩ 5).2.2
     (by norm_num [Decimal.toRat]) (by norm_num [Decimal.toRat])⟩

/-! ## Claim C1: replay invariant -/

/-- Decidable form of the `Amount::new` validity domain, used by the
spec-side balance. -/
def amountOk (d : Decimal) : Bool :=
  decide (Decimal.lt Decimal.zero d) && decide (d.scale ≤ maxScale) &&
    decide (Decimal.le d maxAmount)

theorem amountOk_iff (d : Decimal) :
    amountOk d = true ↔ (0 < d.toRat ∧ d.scale ≤ maxScale ∧ d.toRat ≤ maxAmount.toRat) := by
  simp [amountOk, Bool.and_eq_true, decide_eq_true_eq, and_assoc,
    Decimal.lt_iff, Decimal.le_iff, Decimal.toRat_zero]

theorem amount_new_of_ok (d : Decimal) (h : amountOk d = true) :
    Amount.new d = .ok ⟨d⟩ :=
  (amount_new_ok_iff d).mpr ((amountOk_iff d).mp h)

theorem amount_new_of_not_ok (d : Decimal) (h : amountOk d = false) :
    ∃ e, Amount.new d = .error e := by
  unfold Amount.new
  split_ifs with h1 h2 h3
  · exact ⟨_, rfl⟩
  · exact ⟨_, rfl⟩
  · exact ⟨_, rfl⟩
  · exfalso
    have hok : amountOk d = true := (amountOk_iff d).mpr
      ⟨not_le.mp (fun hc => h1 ((Decimal.le_zero_iff d).mpr hc)),
       not_lt.mp h2,
       not_lt.mp (fun hc => h3 ((Decimal.max_lt_iff d).mpr hc))⟩
    rw [hok] at h
    simp at h

/-- Spec-side running balance of Claim C1: the sum of credited amounts minus
the sum of debited amounts, where a credit or debit whose payload amount
fails `Amount` validation, or whose application would take the running
balance below 0 or above `10^12`, is skipped.  This definition follows the
claim's words; the theorems compare it with the state computed by the
embedded `Account::apply`. -/
def specBalance : Rat → List AccountEvent → Rat
  | b, [] => b
  | b, .moneyCredited _ amount _ _ _ :: rest =>
    if amountOk amount = true ∧ 0 ≤ b + amount.toRat ∧ b + amount.toRat ≤ 1000000000000 then
      specBalance (b + amount.toRat) rest
    else specBalance b rest
  | b, .moneyDebited _ amount _ _ _ :: rest =>
    if amountOk amount = true ∧ 0 ≤ b - amount.toRat ∧ b - amount.toRat ≤ 1000000000000 then
      specBalance (b - amount.toRat) rest
    else specBalance b rest
  | b, _ :: rest => specBalance b rest

/-- Streams in which no `AccountCreated` event appears after a money event;
the flag records whether a money event has already been seen. -/
def noCreateAfterMoney : Bool → List AccountEvent → Bool
  | _, [] => true
  | seen, .accountCreated _ _ _ _ :: rest => !seen && noCreateAfterMoney seen rest
  | _, .moneyCredited _ _ _ _ _ :: rest => noCreateAfterMoney true rest
  | _, .moneyDebited _ _ _ _ _ :: rest => noCreateAfterMoney true rest
  | seen, .accountFrozen _ _ _ :: rest => noCreateAfterMoney seen rest
  | seen, .accountUnfrozen _ _ :: rest => noCreateAfterMoney seen rest

theorem apply_credited_balance (a : Account) (aid : Nat) (amount : Decimal)
    (tid : Nat) (d : String) (ts : Int) :
    (a.apply (.moneyCredited aid amount tid d ts)).balance.val.toRat =
      (if amountOk amount = true ∧ 0 ≤ a.balance.val.toRat + amount.toRat ∧
          a.balance.val.toRat + amount.toRat ≤ 1000000000000 then
        a.balance.val.toRat + amount.toRat
      else a.balance.val.toRat) := by
  by_cases hok : amountOk amount = true
  · have hA := amount_new_of_ok amount hok
    have hcr : a.balance.credit ⟨amount⟩ = Balance.new (a.balance.val.add amount) := rfl
    rcases balance_new_isOk_cases (a.balance.val.add amount) with
      ⟨hc1, hc2, hc3⟩ | ⟨hc1, hc2⟩ | ⟨hc1, hc2⟩
    · rw [Decimal.toRat_add] at hc1 hc2
      rw [maxAmount_toRat] at hc2
      have happ : a.apply (.moneyCredited aid amount tid d ts) =
          { a with balance := ⟨a.balance.val.add amount⟩, version := a.version + 1 } := by
        unfold Account.apply
        simp [hA, hcr, hc3]
      rw [happ, if_pos ⟨hok, hc1, hc2⟩]
      exact Decimal.toRat_add _ _
    · rw [Decimal.toRat_add] at hc1
      have happ : a.apply (.moneyCredited aid amount tid d ts) =
          { a with version := a.version + 1 } := by
        unfold Account.apply
        simp [hA, hcr, hc2]
      rw [happ, if_neg]
      rintro ⟨-, hge, -⟩
      exact absurd hc1 (not_lt.mpr hge)
    · rw [Decimal.toRat_add, maxAmount_toRat] at hc1
      have happ : a.apply (.moneyCredited aid amount tid d ts) =
          { a with version := a.version + 1 } := by
        unfold Account.apply
        simp [hA, hcr, hc2]
      rw [happ, if_neg]
      rintro ⟨-, -, hle⟩
      exact absurd hc1 (not_lt.mpr hle)
  · obtain ⟨e, hA⟩ := amount_new_of_not_ok amount (by simpa using hok)
    have happ : a.apply (.moneyCredited aid amount tid d ts) =
        { a with version := a.version + 1 } := by
      unfold Account.apply
      simp [hA]
    rw [happ, if_neg]
    rintro ⟨h1, -⟩
    exact hok h1

theorem apply_debited_balance (a : Account) (aid : Nat) (amount : Decimal)
    (tid : Nat) (d : String) (ts : Int) :
    (a.apply (.moneyDebited aid amount tid d ts)).balance.val.toRat =
      (if amountOk amount = true ∧ 0 ≤ a.balance.val.toRat - amount.toRat ∧
          a.balance.val.toRat - amount.toRat ≤ 1000000000000 then
        a.balance.val.toRat - amount.toRat
      else a.balance.val.toRat) := by
  by_cases hok : amountOk amount = true
  · have hA := amount_new_of_ok amount hok
    have hdb : a.balance.debit ⟨amount⟩ = Balance.new (a.balance.val.sub amount) := rfl
    rcases balance_new_isOk_cases (a.balance.val.sub amount) with
      ⟨hc1, hc2, hc3⟩ | ⟨hc1, hc2⟩ | ⟨hc1, hc2⟩
    · rw [Decimal.toRat_sub] at hc1 hc2
      rw [maxAmount_toRat] at hc2
      have happ : a.apply (.moneyDebited aid amount tid d ts) =
          { a with balance := ⟨a.balance.val.sub amount⟩, version := a.version + 1 } := by
        unfold Account.apply
        simp [hA, hdb, hc3]
      rw [happ, if_pos ⟨hok, hc1, hc2⟩]
      exact Decimal.toRat_sub _ _
    · rw [Decimal.toRat_sub] at hc1
      have happ : a.apply (.moneyDebited aid amount tid d ts) =
          { a with version := a.version + 1 } := by
        unfold Account.apply
        simp [hA, hdb, hc2]
      rw [happ, if_neg]
      rintro ⟨-, hge, -⟩
      exact absurd hc1 (not_lt.mpr hge)
    · rw [Decimal.toRat_sub, maxAmount_toRat] at hc1
      have happ : a.apply (.moneyDebited aid amount tid d ts) =
          { a with version := a.version + 1 } := by
        unfold Account.apply
        simp [hA, hdb, hc2]
      rw [happ, if_neg]
      rintro ⟨-, -, hle⟩
      exact absurd hc1 (not_lt.mpr hle)
  · obtain ⟨e, hA⟩ := amount_new_of_not_ok amount (by simpa using hok)
    have happ : a.apply (.moneyDebited aid amount tid d ts) =
        { a with version := a.version + 1 } := by
      unfold Account.apply
      simp [hA]
    rw [happ, if_neg]
    rintro ⟨h1, -⟩
    exact hok h1

theorem applyList_balance_spec (S : List AccountEvent) :
    ∀ (a : Account) (seen : Bool),
      noCreateAfterMoney seen S = true →
      (seen = false → a.balance.val.toRat = 0) →
      (a.applyList S).balance.val.toRat = specBalance a.balance.val.toRat S := by
  induction S with
  | nil =>
    intro a seen _ _
    simp [Account.applyList, specBalance]
  | cons e rest ih =>
    intro a seen h1 h2
    cases e with
    | accountCreated aid uid t c =>
      have hseen : seen = false := by
        cases seen
        · rfl
        · simp [noCreateAfterMoney] at h1
      subst hseen
      have hrest : noCreateAfterMoney false rest = true := by
        simpa [noCreateAfterMoney] using h1
      have hb : a.balance.val.toRat = 0 := h2 rfl
      have hb0 : (a.apply (.accountCreated aid uid t c)).balance.val.toRat = 0 :=
        Decimal.toRat_zero
      have hih := ih (a.apply (.accountCreated aid uid t c)) false hrest (fun _ => hb0)
      have hspec : specBalance a.balance.val.toRat
          (AccountEvent.accountCreated aid uid t c :: rest) =
          specBalance a.balance.val.toRat rest := rfl
      show ((a.apply (.accountCreated aid uid t c)).applyList rest).balance.val.toRat = _
      rw [hih, hb0, hspec, hb]
    | moneyCredited aid amount tid d ts =>
      have hrest : noCreateAfterMoney true rest = true := by
        simpa [noCreateAfterMoney] using h1
      have happ := apply_credited_balance a aid amount tid d ts
      have hih := ih (a.apply (.moneyCredited aid amount tid d ts)) true hrest
        (fun hf => absurd hf (by simp))
      have hspec : specBalance a.balance.val.toRat
          (AccountEvent.moneyCredited aid amount tid d ts :: rest) =
          if amountOk amount = true ∧ 0 ≤ a.balance.val.toRat + amount.toRat ∧
              a.balance.val.toRat + amount.toRat ≤ 1000000000000 then
            specBalance (a.balance.val.toRat + amount.toRat) rest
          else specBalance a.balance.val.toRat rest := rfl
      show ((a.apply (.moneyCredited aid amount tid d ts)).applyList rest).balance.val.toRat = _
      rw [hih, hspec]
      by_cases hC : amountOk amount = true ∧ 0 ≤ a.balance.val.toRat + amount.toRat ∧
          a.balance.val.toRat + amount.toRat ≤ 1000000000000
      · rw [if_pos hC] at happ ⊢
        rw [happ]
      · rw [if_neg hC] at happ ⊢
        rw [happ]
    | moneyDebited aid amount tid d ts =>
      have hrest : noCreateAfterMoney true rest = true := by
        simpa [noCreateAfterMoney] using h1
      have happ := apply_debited_balance a aid amount tid d ts
      have hih := ih (a.apply (.moneyDebited aid amount tid d ts)) true hrest
        (fun hf => absurd hf (by simp))
      have hspec : specBalance a.balance.val.toRat
          (AccountEvent.moneyDebited aid amount tid d ts :: rest) =
          if amountOk amount = true ∧ 0 ≤ a.balance.val.toRat - amount.toRat ∧
              a.balance.val.toRat - amount.toRat ≤ 1000000000000 then
            specBalance (a.balance.val.toRat - amount.toRat) rest
          else specBalance a.balance.val.toRat rest := rfl
      show ((a.apply (.moneyDebited aid amount tid d ts)).applyList rest).balance.val.toRat = _
      rw [hih, hspec]
      by_cases hC : amountOk amount = true ∧ 0 ≤ a.balance.val.toRat - amount.toRat ∧
          a.balance.val.toRat - amount.toRat ≤ 1000000000000
      · rw [if_pos hC] at happ ⊢
        rw [happ]
      · rw [if_neg hC] at happ ⊢
        rw [happ]
    | accountFrozen aid r ts =>
      have hrest : noCreateAfterMoney seen rest = true := by
        simpa [noCreateAfterMoney] using h1
      have hbal : (a.apply (.accountFrozen aid r ts)).balance = a.balance := rfl
      have hih := ih (a.apply (.accountFrozen aid r ts)) seen hrest
        (fun hf => by rw [hbal]; exact h2 hf)
      have hspec : specBalance a.balance.val.toRat
          (AccountEvent.accountFrozen aid r ts :: rest) =
          specBalance a.balance.val.toRat rest := rfl
      show ((a.apply (.accountFrozen aid r ts)).applyList rest).balance.val.toRat = _
      rw [hih, hbal, hspec]
    | accountUnfrozen aid ts =>
      have hrest : noCreateAfterMoney seen rest = true := by
        simpa [noCreateAfterMoney] using h1
      have hbal : (a.apply (.accountUnfrozen aid ts)).balance = a.balance := rfl
      have hih := ih (a.apply (.accountUnfrozen aid ts)) seen hrest
        (fun hf => by rw [hbal]; exact h2 hf)
      have hspec : specBalance a.balance.val.toRat
          (AccountEvent.accountUnfrozen aid ts :: rest) =
          specBalance a.balance.val.toRat rest := rfl
      show ((a.apply (.accountUnfrozen aid ts)).applyList rest).balance.val.toRat = _
      rw [hih, hbal, hspec]

/-- Event stream falsifying Claim C1 as stated: a credit followed by an
`AccountCreated` event, which `apply` answers by resetting the balance to
zero. -/
def c1Stream : List AccountEvent :=
  [.moneyCredited 1 ⟨100, 0⟩ 2 "c" 0, .accountCreated 1 3 "user_wallet" 0]

/-- Counterexample to Claim C1 as stated: on the stream `c1Stream` the
version is `|S| = 2` and no event is skipped by the replay-error policy, but
the replayed balance is 0 while the sum of credited amounts minus debited
amounts is 100. -/
theorem C1_counterexample :
    (Account.default.applyList c1Stream).version = 2 ∧
    (Account.default.applyList c1Stream).balance.val = Decimal.zero ∧
    specBalance 0 c1Stream = 100 ∧
    (Account.default.applyList c1Stream).balance.val.toRat ≠ specBalance 0 c1Stream := by
  have hrun : Account.default.applyList c1Stream =
      ⟨1, 3, "user_wallet", Balance.zero, .active, 2, some 0⟩ := by decide
  have hspec : specBalance 0 c1Stream = 100 := by
    have h1 : amountOk ⟨100, 0⟩ = true := by decide
    have h2 : specBalance 0 c1Stream =
        if amountOk ⟨100, 0⟩ = true ∧ 0 ≤ (0 : Rat) + Decimal.toRat ⟨100, 0⟩ ∧
            (0 : Rat) + Decimal.toRat ⟨100, 0⟩ ≤ 1000000000000 then
          specBalance (0 + Decimal.toRat ⟨100, 0⟩) [.accountCreated 1 3 "user_wallet" 0]
        else specBalance 0 [.accountCreated 1 3 "user_wallet" 0] := rfl
    have h3 : Decimal.toRat ⟨100, 0⟩ = 100 := by norm_num [Decimal.toRat]
    rw [h2, if_pos ⟨h1, by rw [h3]; norm_num, by rw [h3]; norm_num⟩]
    show (0 : Rat) + Decimal.toRat ⟨100, 0⟩ = 100
    rw [h3]
    norm_num
  refine ⟨by rw [hrun], by rw [hrun]; rfl, hspec, ?_⟩
  rw [hrun, hspec]
  show Decimal.zero.toRat ≠ 100
  rw [Decimal.toRat_zero]
  norm_num

/-- Claim C1 (amended): for every finite list `S` of account events in which
no `AccountCreated` event follows a money event (an `AccountCreated` event
resets the balance to zero, which the claim as stated does not account
for), folding `Account::apply` over `S` from the default account yields
`version = |S|` and a balance equal to the sum of credited amounts minus
debited amounts, where a credit or debit whose payload fails `Amount`
validation or would take the balance below 0 or above `10^12` is skipped
while the version still increments. -/
theorem C1_account_replay (S : List AccountEvent)
    (h : noCreateAfterMoney false S = true) :
    (Account.default.applyList S).version = S.length ∧
    (Account.default.applyList S).balance.val.toRat = specBalance 0 S := by
  constructor
  · rw [Account.applyList_version]
    simp [Account.default]
  · have hz : Account.default.balance.val.toRat = 0 := Decimal.toRat_zero
    have hs := applyList_balance_spec S Account.default false h (fun _ => hz)
    rwa [hz] at hs

/-- Witness for Claim C1 on a concrete stream: creation, a credit of 100 and
a debit of 30 replay to version 3 with balance matching the spec-side sum. -/
theorem C1_witness :
    noCreateAfterMoney false
      [.accountCreated 1 2 "user_wallet" 0, .moneyCredited 1 ⟨100, 0⟩ 3 "c" 1,
        .moneyDebited 1 ⟨30, 0⟩ 4 "d" 2] = true ∧
    (Account.default.applyList
      [.accountCreated 1 2 "user_wallet" 0, .moneyCredited 1 ⟨100, 0⟩ 3 "c" 1,
        .moneyDebited 1 ⟨30, 0⟩ 4 "d" 2]).version = 3 ∧
    (Account.default.applyList
      [.accountCreated 1 2 "user_wallet" 0, .moneyCredited 1 ⟨100, 0⟩ 3 "c" 1,
        .moneyDebited 1 ⟨30, 0⟩ 4 "d" 2]).balance.val.toRat =
      specBalance 0
        [.accountCreated 1 2 "user_wallet" 0, .moneyCredited 1 ⟨100, 0⟩ 3 "c" 1,
          .moneyDebited 1 ⟨30, 0⟩ 4 "d" 2] :=
  ⟨by decide,
   (C1_account_replay _ (by decide)).1,
   (C1_account_replay _ (by decide)).2⟩

/-! ## Event store errors and the `append_atomic` retry loop
(src/src/event_store/error.rs, src/src/event_store/repository.rs) -/

/-- Model of `EventStoreError` (src/src/event_store/error.rs).  The payloads
of the `Database` and `Serialization` variants are reduced to a message
string. -/
inductive EventStoreError where
  | concurrencyConflict (aggregate_id : Nat) (expected actual : Int)
  | aggregateNotFound (id : Nat)
  | idempotencyKeyExists (key : Nat)
  | databaseError (msg : String)
  | serializationError (msg : String)
  | maxRetriesExceeded
  | invalidEventData (msg : String)
deriving DecidableEq, Repr

instance exceptDecEq {e a : Type} [DecidableEq e] [DecidableEq a] :
    DecidableEq (Except e a) := fun x y =>
  match x, y with
  | .ok u, .ok v => decidable_of_iff (u = v) (by constructor <;> (intro h; simp_all))
  | .error u, .error v => decidable_of_iff (u = v) (by constructor <;> (intro h; simp_all))
  | .ok _, .error _ => .isFalse (by simp)
  | .error _, .ok _ => .isFalse (by simp)

/-- Model of `EventStoreError::is_concurrency_conflict`. -/
def EventStoreError.is_concurrency_conflict : EventStoreError → Bool
  | .concurrencyConflict _ _ _ => true
  | _ => false

/-- The `MAX_RETRIES` constant of `append_atomic`. -/
def MAX_RETRIES : Nat := 3

/-- Model of the `for attempt in 0..MAX_RETRIES` loop of `append_atomic`
(src/src/event_store/repository.rs lines 78-108), with the single attempt
abstracted as `res` (the outcome of `try_append_atomic` at each attempt) and
the slept backoff durations in milliseconds collected in the second
component.  A `ConcurrencyConflict` retries only while
`attempt < MAX_RETRIES - 1`; any other error, and a conflict on the last
attempt, returns immediately; the trailing `MaxRetriesExceeded` corresponds
to the expression after the loop. -/
def append_atomic_go (res : Nat → Except EventStoreError (List Nat)) :
    List Nat → Except EventStoreError (List Nat) × List Nat
  | [] => (.error .maxRetriesExceeded, [])
  | attempt :: rest =>
    match res attempt with
    | .ok ids => (.ok ids, [])
    | .error e =>
      if e.is_concurrency_conflict = true ∧ attempt < MAX_RETRIES - 1 then
        let r := append_atomic_go res rest
        (r.1, 50 * (attempt + 1) :: r.2)
      else (.error e, [])

/-- Model of `EventStore::append_atomic` over the attempt oracle `res`. -/
def append_atomic (res : Nat → Except EventStoreError (List Nat)) :
    Except EventStoreError (List Nat) × List Nat :=
  append_atomic_go res (List.range MAX_RETRIES)

/-- An attempt oracle on which every attempt reports the same concurrency
conflict. -/
def c3AllConflicts : Nat → Except EventStoreError (List Nat) :=
  fun _ => .error (.concurrencyConflict 7 1 2)

/-- Counterexample to Claim C3 as stated: when all three attempts fail with
`ConcurrencyConflict`, `append_atomic` returns that third conflict, not
`MaxRetriesExceeded` (the `MaxRetriesExceeded` return after the loop is
unreachable because the retry guard `attempt < MAX_RETRIES - 1` already
excludes the last attempt); the slept backoffs are 50 ms and 100 ms. -/
theorem C3_counterexample :
    append_atomic c3AllConflicts = (.error (.concurrencyConflict 7 1 2), [50, 100]) ∧
    (append_atomic c3AllConflicts).1 ≠ .error .maxRetriesExceeded := by
  refine ⟨by decide, by decide⟩

/-- Claim C3 (amended): `append_atomic` makes at most 3 attempts; between
attempts that fail with `ConcurrencyConflict` it sleeps 50 ms × attempt
number; if all 3 attempts fail with `ConcurrencyConflict` it returns the
third attempt's `ConcurrencyConflict` error (the `MaxRetriesExceeded` branch
after the loop is unreachable); any error other than `ConcurrencyConflict`
is returned immediately without retry. -/
theorem C3_append_atomic_retry (res : Nat → Except EventStoreError (List Nat)) :
    (∀ ids, res 0 = .ok ids → append_atomic res = (.ok ids, [])) ∧
    (∀ e, res 0 = .error e → e.is_concurrency_conflict = false →
      append_atomic res = (.error e, [])) ∧
    (∀ e0 ids, res 0 = .error e0 → e0.is_concurrency_conflict = true →
      res 1 = .ok ids → append_atomic res = (.ok ids, [50])) ∧
    (∀ e0 e1, res 0 = .error e0 → e0.is_concurrency_conflict = true →
      res 1 = .error e1 → e1.is_concurrency_conflict = false →
      append_atomic res = (.error e1, [50])) ∧
    (∀ e0 e1 ids, res 0 = .error e0 → e0.is_concurrency_conflict = true →
      res 1 = .error e1 → e1.is_concurrency_conflict = true →
      res 2 = .ok ids → append_atomic res = (.ok ids, [50, 100])) ∧
    (∀ e0 e1 e2, res 0 = .error e0 → e0.is_concurrency_conflict = true →
      res 1 = .error e1 → e1.is_concurrency_conflict = true →
      res 2 = .error e2 → append_atomic res = (.error e2, [50, 100])) := by
  have hrange : List.range MAX_RETRIES = [0, 1, 2] := by decide
  refine ⟨?_, ?_, ?_, ?_, ?_, ?_⟩
  · intro ids h0
    unfold append_atomic
    rw [hrange]
    simp [append_atomic_go, h0]
  · intro e h0 hcc
    unfold append_atomic
    rw [hrange]
    simp [append_atomic_go, h0, hcc]
  · intro e0 ids h0 hcc0 h1
    unfold append_atomic
    rw [hrange]
    simp [append_atomic_go, h0, hcc0, h1, MAX_RETRIES]
  · intro e0 e1 h0 hcc0 h1 hcc1
    unfold append_atomic
    rw [hrange]
    simp [append_atomic_go, h0, hcc0, h1, hcc1, MAX_RETRIES]
  · intro e0 e1 ids h0 hcc0 h1 hcc1 h2
    unfold append_atomic
    rw [hrange]
    simp [append_atomic_go, h0, hcc0, h1, hcc1, h2, MAX_RETRIES]
  · intro e0 e1 e2 h0 hcc0 h1 hcc1 h2
    unfold append_atomic
    rw [hrange]
    simp [append_atomic_go, h0, hcc0, h1, hcc1, h2, MAX_RETRIES]

/-- Witness for Claim C3: the all-conflicts case and an immediate
non-retryable error, each at a concrete oracle. -/
theorem C3_witness :
    append_atomic (fun _ => .error (.concurrencyConflict 9 4 5)) =
      (.error (.concurrencyConflict 9 4 5), [50, 100]) ∧
    append_atomic (fun _ => .error (.idempotencyKeyExists 6)) =
      (.error (.idempotencyKeyExists 6), []) :=
  ⟨(C3_append_atomic_retry (fun _ => .error (.concurrencyConflict 9 4 5))).2.2.2.2.2
     (.concurrencyConflict 9 4 5) (.concurrencyConflict 9 4 5) (.concurrencyConflict 9 4 5)
     rfl rfl rfl rfl rfl,
   (C3_append_atomic_retry (fun _ => .error (.idempotencyKeyExists 6))).2.1
     (.idempotencyKeyExists 6) rfl rfl⟩

/-! ## Store model: events and idempotency tables
(src/src/event_store/repository.rs) -/

/-- Model of a row of the `idempotency_keys` table, with the columns the
verified paths read or write. -/
structure IdemRow where
  request_hash : String
  processing_status : String
  event_id : Option Nat
  processing_started_at : Option Int
deriving DecidableEq, Repr

/-- Model of a row of the `events` table. -/
structure EventRow where
  id : Nat
  aggregate_type : String
  aggregate_id : Nat
  version : Int
  event_type : String
  event_data : AccountEvent
  idempotency_key : Option Nat
deriving DecidableEq, Repr

/-- Model of `AggregateOperation`. -/
structure AggregateOperation where
  aggregate_type : String
  aggregate_id : Nat
  expected_version : Int
  event_type : String
  event_data : AccountEvent
deriving DecidableEq, Repr

/-- The database state the verified paths touch: the `events` table (rows in
insertion order, which the code keeps ascending in `version` per aggregate)
and the `idempotency_keys` table as an association list on the key. -/
structure Store where
  events : List EventRow
  idem : List (Nat × IdemRow)
deriving DecidableEq, Repr

/-- Lookup by primary key in the idempotency table (`SELECT ... WHERE
key = $1`). -/
def idemLookup (tbl : List (Nat × IdemRow)) (key : Nat) : Option IdemRow :=
  match tbl with
  | [] => none
  | (k, row) :: rest => if k == key then some row else idemLookup rest key

/-- Maximum of a list of versions (`SELECT MAX(version)`), `none` on an empty
set. -/
def maxVersion : List Int → Option Int
  | [] => none
  | v :: rest =>
    match maxVersion rest with
    | none => some v
    | some m => some (if m < v then v else m)

/-- Model of `EventStore::get_current_version`: `MAX(version)` over the
aggregate's events, defaulting to 0. -/
def getCurrentVersion (events : List EventRow) (aggregate_id : Nat) : Int :=
  match maxVersion ((events.filter (fun e => e.aggregate_id == aggregate_id)).map
      (fun e => e.version)) with
  | some m => m
  | none => 0

/-- Model of `EventStore::check_idempotency_key` (repository.rs lines
209-247): a `completed` row returns its (possibly NULL) `event_id`; a
`processing` row fails with `IdempotencyKeyExists` (the column
`processing_started_at` is not consulted); any other row proceeds without
being modified; an absent key inserts a fresh `processing` row (with empty
`request_hash`, per the TODO in the source). -/
def check_idempotency_key (tbl : List (Nat × IdemRow)) (key : Nat) (now : Int) :
    Except EventStoreError (Option Nat) × List (Nat × IdemRow) :=
  match idemLookup tbl key with
  | some row =>
    if row.processing_status == "completed" then (.ok row.event_id, tbl)
    else if row.processing_status == "processing" then
      (.error (.idempotencyKeyExists key), tbl)
    else (.ok none, tbl)
  | none => (.ok none, tbl ++ [(key, ⟨"", "processing", none, some now⟩)])

/-- Model of `EventStore::complete_idempotency_key`: `UPDATE ... SET
processing_status = completed, event_id = $2 WHERE key = $1`. -/
def complete_idempotency_key (tbl : List (Nat × IdemRow)) (key : Nat)
    (event_id : Nat) : List (Nat × IdemRow) :=
  tbl.map (fun p =>
    if p.1 == key then
      (p.1, { p.2 with processing_status := "completed", event_id := some event_id })
    else p)

/-- Model of the per-operation loop of `try_append_atomic` (repository.rs
lines 136-175): version check against `get_current_version`, then insertion
of the event row with `version = expected_version + 1`, attaching the
idempotency key only at index 0.  Fresh event ids (`RETURNING id`) come from
`supply`. -/
def appendOps (key : Option Nat) (supply : Nat → Nat) :
    List AggregateOperation → List EventRow → Nat → List Nat →
    Except EventStoreError (List EventRow × List Nat)
  | [], events, _, acc => .ok (events, acc)
  | op :: rest, events, idx, acc =>
    let current := getCurrentVersion events op.aggregate_id
    if current ≠ op.expected_version then
      .error (.concurrencyConflict op.aggregate_id op.expected_version current)
    else
      let new_version := op.expected_version + 1
      let idem_key := if idx == 0 then key else none
      let event_id := supply idx
      appendOps key supply rest
        (events ++ [⟨event_id, op.aggregate_type, op.aggregate_id, new_version,
          op.event_type, op.event_data, idem_key⟩])
        (idx + 1) (acc ++ [event_id])

/-- Model of `EventStore::try_append_atomic` (repository.rs lines 115-187).
The transaction is modelled by returning the original store whenever the
attempt errors or returns before `commit` (so the `processing` row inserted
by the check is rolled back on a later conflict); `event_ids[0]` becomes
`headD 0` (no verified claim calls this with an empty operation list and a
key); serialization of the operation context cannot fail in the model. -/
def try_append_atomic (st : Store) (ops : List AggregateOperation)
    (idempotency_key : Option Nat) (supply : Nat → Nat) (now : Int) :
    Except EventStoreError (List Nat) × Store :=
  match idempotency_key with
  | some key =>
    match check_idempotency_key st.idem key now with
    | (.error e, _) => (.error e, st)
    | (.ok (some existing), _) => (.ok [existing], st)
    | (.ok none, idem1) =>
      match appendOps (some key) supply ops st.events 0 [] with
      | .error e => (.error e, st)
      | .ok (events1, event_ids) =>
        (.ok event_ids, ⟨events1, complete_idempotency_key idem1 key (event_ids.headD 0)⟩)
  | none =>
    match appendOps none supply ops st.events 0 [] with
    | .error e => (.error e, st)
    | .ok (events1, event_ids) => (.ok event_ids, ⟨events1, st.idem⟩)

theorem idemLookup_complete (tbl : List (Nat × IdemRow)) (key : Nat) (eid : Nat) :
    ∀ row, idemLookup tbl key = some row →
      idemLookup (complete_idempotency_key tbl key eid) key =
        some { row with processing_status := "completed", event_id := some eid } := by
  induction tbl with
  | nil =>
    intro row h
    simp [idemLookup] at h
  | cons p rest ih =>
    intro row h
    have hcc : complete_idempotency_key (p :: rest) key eid =
        (if p.1 == key then
          (p.1, { p.2 with processing_status := "completed", event_id := some eid })
        else p) :: complete_idempotency_key rest key eid := rfl
    by_cases hk : (p.1 == key) = true
    · rw [show idemLookup (p :: rest) key = some p.2 by simp [idemLookup, hk]] at h
      have hrow : p.2 = row := by injection h
      subst hrow
      rw [hcc, if_pos hk]
      simp [idemLookup, hk]
    · rw [show idemLookup (p :: rest) key = idemLookup rest key by
        simp [idemLookup, hk]] at h
      rw [hcc, if_neg hk]
      rw [show idemLookup ((p :: complete_idempotency_key rest key eid) : List (Nat × IdemRow))
          key = idemLookup (complete_idempotency_key rest key eid) key by
        simp [idemLookup, hk]]
      exact ih row h

/-- A store with a stale `processing` idempotency row: inserted at time 0,
inspected 360 seconds (6 minutes) later. -/
def c4StaleStore : Store :=
  ⟨[], [(5, ⟨"", "processing", none, some 0⟩)]⟩

/-- An operation list with one account-creation op, used by concrete
append-path evaluations. -/
def c4Ops : List AggregateOperation :=
  [⟨"Account", 1, 0, "AccountCreated", .accountCreated 1 2 "user_wallet" 0⟩]

/-- Counterexample to Claim C4 as stated: a `processing` row whose
`processing_started_at` is 6 minutes old still fails with
`IdempotencyKeyExists` (the code never reads `processing_started_at` on this
path), and a `failed` row is left as `failed` rather than being marked
`processing`. -/
theorem C4_counterexample :
    try_append_atomic c4StaleStore c4Ops (some 5) (fun i => 100 + i) 360 =
      (.error (.idempotencyKeyExists 5), c4StaleStore) ∧
    (check_idempotency_key [(9, ⟨"", "failed", none, some 0⟩)] 9 360).2 =
      [(9, ⟨"", "failed", none, some 0⟩)] := by
  refine ⟨by decide, by decide⟩

/-- Claim C4 (amended): in a single append attempt with an idempotency key,
the idempotency row is inspected before any event insert: a `completed` row
with a non-NULL `event_id` short-circuits with the cached id as the sole
result; any `processing` row fails with `IdempotencyKeyExists` regardless of
how old `processing_started_at` is; a row in any other state (such as
`failed`) leads to the append proceeding without the row being modified; an
absent row is inserted as `processing` and the append proceeds. -/
theorem C4_idempotency_check (st : Store) (ops : List AggregateOperation) (key : Nat)
    (supply : Nat → Nat) (now : Int) :
    (∀ row eid, idemLookup st.idem key = some row →
      row.processing_status = "completed" → row.event_id = some eid →
      try_append_atomic st ops (some key) supply now = (.ok [eid], st)) ∧
    (∀ row, idemLookup st.idem key = some row →
      row.processing_status = "processing" →
      try_append_atomic st ops (some key) supply now =
        (.error (.idempotencyKeyExists key), st)) ∧
    (∀ row, idemLookup st.idem key = some row →
      row.processing_status ≠ "completed" → row.processing_status ≠ "processing" →
      check_idempotency_key st.idem key now = (.ok none, st.idem)) ∧
    (idemLookup st.idem key = none →
      check_idempotency_key st.idem key now =
        (.ok none, st.idem ++ [(key, ⟨"", "processing", none, some now⟩)])) := by
  refine ⟨?_, ?_, ?_, ?_⟩
  · intro row eid hlook hst hid
    simp [try_append_atomic, check_idempotency_key, hlook, hst, hid]
  · intro row hlook hst
    simp [try_append_atomic, check_idempotency_key, hlook, hst]
  · intro row hlook hc hp
    simp [check_idempotency_key, hlook, hc, hp]
  · intro hlook
    simp [check_idempotency_key, hlook]

/-- Witness for Claim C4: the four branches at concrete stores. -/
theorem C4_witness :
    try_append_atomic ⟨[], [(5, ⟨"", "completed", some 42, some 0⟩)]⟩ c4Ops
      (some 5) (fun i => 100 + i) 360 =
      (.ok [42], ⟨[], [(5, ⟨"", "completed", some 42, some 0⟩)]⟩) ∧
    try_append_atomic ⟨[], [(5, ⟨"", "processing", none, some (-1000)⟩)]⟩ c4Ops
      (some 5) (fun i => 100 + i) 360 =
      (.error (.idempotencyKeyExists 5), ⟨[], [(5, ⟨"", "processing", none, some (-1000)⟩)]⟩) ∧
    check_idempotency_key [(5, ⟨"", "failed", none, some 0⟩)] 5 360 =
      (.ok none, [(5, ⟨"", "failed", none, some 0⟩)]) ∧
    check_idempotency_key [] 5 360 =
      (.ok none, [(5, ⟨"", "processing", none, some 360⟩)]) :=
  ⟨(C4_idempotency_check ⟨[], [(5, ⟨"", "completed", some 42, some 0⟩)]⟩ c4Ops 5
      (fun i => 100 + i) 360).1 ⟨"", "completed", some 42, some 0⟩ 42 rfl rfl rfl,
   (C4_idempotency_check ⟨[], [(5, ⟨"", "processing", none, some (-1000)⟩)]⟩ c4Ops 5
      (fun i => 100 + i) 360).2.1 ⟨"", "processing", none, some (-1000)⟩ rfl rfl,
   (C4_idempotency_check ⟨[], [(5, ⟨"", "failed", none, some 0⟩)]⟩ c4Ops 5
      (fun i => 100 + i) 360).2.2.1 ⟨"", "failed", none, some 0⟩ rfl (by decide) (by decide),
   (C4_idempotency_check ⟨[], []⟩ c4Ops 5 (fun i => 100 + i) 360).2.2.2 rfl⟩

/-- Claim C10: when the idempotency row is `completed` with a NULL
`event_id`, a single append attempt neither short-circuits nor errors: it
behaves as though no prior result existed, proceeding to the version-checked
append (without inserting a fresh `processing` row: the final idempotency
table is the original one with only this row updated), and finally
overwrites the row as `completed` with the first new event's id. -/
theorem C10_completed_null_append (st : Store) (ops : List AggregateOperation)
    (key : Nat) (supply : Nat → Nat) (now : Int) (row : IdemRow)
    (hlook : idemLookup st.idem key = some row)
    (hst : row.processing_status = "completed")
    (hid : row.event_id = none) :
    (∀ e, appendOps (some key) supply ops st.events 0 [] = .error e →
      try_append_atomic st ops (some key) supply now = (.error e, st)) ∧
    (∀ events1 event_ids,
      appendOps (some key) supply ops st.events 0 [] = .ok (events1, event_ids) →
      try_append_atomic st ops (some key) supply now =
        (.ok event_ids, ⟨events1, complete_idempotency_key st.idem key (event_ids.headD 0)⟩) ∧
      idemLookup (complete_idempotency_key st.idem key (event_ids.headD 0)) key =
        some { row with processing_status := "completed", event_id := some (event_ids.headD 0) }) := by
  constructor
  · intro e happ
    simp [try_append_atomic, check_idempotency_key, hlook, hst, hid, happ]
  · intro events1 event_ids happ
    constructor
    · simp [try_append_atomic, check_idempotency_key, hlook, hst, hid, happ]
    · exact idemLookup_complete st.idem key (event_ids.headD 0) row hlook

/-- Witness for Claim C10: a concrete `completed`-with-NULL row, through
which the append proceeds and which ends up `completed` with the first new
event's id. -/
theorem C10_witness :
    try_append_atomic ⟨[], [(7, ⟨"", "completed", none, some 0⟩)]⟩ c4Ops
      (some 7) (fun i => 100 + i) 360 =
      (.ok [100],
        ⟨[⟨100, "Account", 1, 1, "AccountCreated", .accountCreated 1 2 "user_wallet" 0, some 7⟩],
          [(7, ⟨"", "completed", some 100, some 0⟩)]⟩) ∧
    idemLookup [(7, ⟨"", "completed", some 100, some 0⟩)] 7 =
      some ⟨"", "completed", some 100, some 0⟩ :=
  ⟨((C10_completed_null_append ⟨[], [(7, ⟨"", "completed", none, some 0⟩)]⟩ c4Ops 7
      (fun i => 100 + i) 360 ⟨"", "completed", none, some 0⟩ rfl rfl rfl).2
    [⟨100, "Account", 1, 1, "AccountCreated", .accountCreated 1 2 "user_wallet" 0, some 7⟩]
    [100] (by decide)).1,
   by decide⟩

/-! ## Mint handler (src/src/handlers/mint_handler.rs) -/

/-- Model of the retry loop of `append_atomic` over a concrete store: each
attempt runs `try_append_atomic` on the same (rolled-back) store. -/
def append_atomic_store_go (st : Store) (ops : List AggregateOperation)
    (key : Option Nat) (supply : Nat → Nat) (now : Int) :
    List Nat → Except EventStoreError (List Nat) × Store
  | [] => (.error .maxRetriesExceeded, st)
  | attempt :: rest =>
    match try_append_atomic st ops key supply now with
    | (.ok ids, st1) => (.ok ids, st1)
    | (.error e, _) =>
      if e.is_concurrency_conflict = true ∧ attempt < MAX_RETRIES - 1 then
        append_atomic_store_go st ops key supply now rest
      else (.error e, st)

/-- `EventStore::append_atomic` on a concrete store. -/
def append_atomic_store (st : Store) (ops : List AggregateOperation)
    (key : Option Nat) (supply : Nat → Nat) (now : Int) :
    Except EventStoreError (List Nat) × Store :=
  append_atomic_store_go st ops key supply now (List.range MAX_RETRIES)

/-- On a deterministic store a retried attempt repeats the first attempt, so
the retry wrapper returns exactly what the single attempt returns. -/
theorem append_atomic_store_eq (st : Store) (ops : List AggregateOperation)
    (key : Option Nat) (supply : Nat → Nat) (now : Int) :
    append_atomic_store st ops key supply now =
      (match try_append_atomic st ops key supply now with
        | (.ok ids, st1) => (.ok ids, st1)
        | (.error e, _) => (.error e, st)) := by
  unfold append_atomic_store
  rw [show List.range MAX_RETRIES = [0, 1, 2] from by decide]
  cases htry : try_append_atomic st ops key supply now with
  | mk r st1 =>
    cases r with
    | ok ids => simp [append_atomic_store_go, htry]
    | error e =>
      by_cases hcc : e.is_concurrency_conflict = true
      · simp [append_atomic_store_go, htry, hcc, MAX_RETRIES]
      · simp [append_atomic_store_go, htry, hcc]

theorem getCurrentVersion_append_ne (events : List EventRow) (row : EventRow)
    (aggregate_id : Nat) (h : row.aggregate_id ≠ aggregate_id) :
    getCurrentVersion (events ++ [row]) aggregate_id =
      getCurrentVersion events aggregate_id := by
  unfold getCurrentVersion
  rw [List.filter_append]
  rw [show List.filter (fun e => e.aggregate_id == aggregate_id) [row] = [] by simp [h]]
  rw [List.append_nil]

theorem idemLookup_append_self (tbl : List (Nat × IdemRow)) (key : Nat) (row : IdemRow)
    (h : idemLookup tbl key = none) : idemLookup (tbl ++ [(key, row)]) key = some row := by
  induction tbl with
  | nil => simp [idemLookup]
  | cons p rest ih =>
    by_cases hk : (p.1 == key) = true
    · rw [show idemLookup (p :: rest) key = some p.2 by simp [idemLookup, hk]] at h
      cases h
    · rw [show idemLookup (p :: rest) key = idemLookup rest key by simp [idemLookup, hk]] at h
      show idemLookup (p :: (rest ++ [(key, row)])) key = some row
      rw [show idemLookup (p :: (rest ++ [(key, row)])) key =
        idemLookup (rest ++ [(key, row)]) key by simp [idemLookup, hk]]
      exact ih h

theorem Account.apply_credited_status (a : Account) (aid : Nat) (amount : Decimal)
    (tid : Nat) (d : String) (ts : Int) :
    (a.apply (.moneyCredited aid amount tid d ts)).status = a.status := by
  unfold Account.apply
  cases hA : Amount.new amount with
  | error _ => simp [hA]
  | ok amt =>
    cases hB : a.balance.credit amt with
    | error _ => simp [hA, hB]
    | ok nb => simp [hA, hB]

theorem Account.from_db_state_version (id user_id : Nat) (account_type : String)
    (balance : Decimal) (version : Int) :
    (Account.from_db_state id user_id account_type balance version).version = version := rfl

/-- Model of `EventStore::load_aggregate` for accounts with no snapshot rows:
replay all the aggregate's events from the default state; `none` when there
are no events.  The store keeps each aggregate's rows in ascending version
order, so the SQL `ORDER BY version ASC` coincides with list order. -/
def load_aggregate_account (events : List EventRow) (aggregate_id : Nat) : Option Account :=
  let rows := events.filter (fun e => e.aggregate_id == aggregate_id)
  if rows.isEmpty then none
  else some (Account.applyList Account.default (rows.map (fun e => e.event_data)))

/-- Model of `MintHandler::load_account_with_fallback`: event sourcing first,
then the relational-row fallback (`load_system_account`, whose DB reads are
abstracted into the `fallback` parameter). -/
def load_account_with_fallback (st : Store) (aggregate_id : Nat)
    (fallback : Option Account) : Option Account :=
  match load_aggregate_account st.events aggregate_id with
  | some a => some a
  | none => fallback

theorem load_aggregate_account_some (events : List EventRow) (aggregate_id : Nat)
    (a : Account) (h : load_aggregate_account events aggregate_id = some a) :
    Account.applyList Account.default
      ((events.filter (fun e => e.aggregate_id == aggregate_id)).map
        (fun e => e.event_data)) = a := by
  unfold load_aggregate_account at h
  by_cases he : (events.filter (fun e => e.aggregate_id == aggregate_id)).isEmpty
  · rw [if_pos he] at h
    cases h
  · rw [if_neg he] at h
    injection h

theorem load_aggregate_account_append (events : List EventRow) (aggregate_id : Nat)
    (row : EventRow) (hrow : row.aggregate_id = aggregate_id) (a : Account)
    (h : load_aggregate_account events aggregate_id = some a) :
    load_aggregate_account (events ++ [row]) aggregate_id =
      some (a.apply row.event_data) := by
  unfold load_aggregate_account
  rw [List.filter_append]
  rw [show List.filter (fun e => e.aggregate_id == aggregate_id) [row] = [row] by
    simp [hrow]]
  rw [if_neg (by simp)]
  rw [List.map_append]
  show some (Account.applyList Account.default (_ ++ [row.event_data])) = _
  unfold Account.applyList
  rw [List.foldl_append]
  rw [show List.foldl Account.apply Account.default
    ((events.filter (fun e => e.aggregate_id == aggregate_id)).map (fun e => e.event_data)) =
      a from load_aggregate_account_some events aggregate_id a h]
  rfl

theorem load_aggregate_account_append_ne (events : List EventRow) (aggregate_id : Nat)
    (row : EventRow) (hrow : row.aggregate_id ≠ aggregate_id) :
    load_aggregate_account (events ++ [row]) aggregate_id =
      load_aggregate_account events aggregate_id := by
  unfold load_aggregate_account
  rw [List.filter_append]
  rw [show List.filter (fun e => e.aggregate_id == aggregate_id) [row] = [] by simp [hrow]]
  rw [List.append_nil]

/-- The `SYSTEM_MINT` user id (`00000000-0000-0000-0000-000000000001`),
modelled as 1. -/
def SYSTEM_MINT_USER_ID : Nat := 1

/-- Model of `MintResult` (src/src/handlers/mod.rs). -/
structure MintResult where
  mint_id : Nat
  recipient_user_id : Nat
  amount : Decimal
deriving DecidableEq, Repr

/-- Model of `MintHandler::execute` (mint_handler.rs lines 40-160).  The
resolved account ids, the projection-table balance of `SYSTEM_MINT` and the
relational fallback for the recipient are parameters (they come from SQL
lookups outside the claim); the fresh `Uuid::new_v4` mint id and the fresh
event ids are the `mint_id` and `supply` parameters.  Projection updates,
snapshot writes and the audit record are omitted: they touch neither the
`events` nor the `idempotency_keys` table nor the returned `MintResult`. -/
def MintHandler.execute (st : Store) (idempotency_key : Option Nat)
    (recipient_user_id : Nat) (amount : Decimal) (reason : String)
    (mint_account_id recipient_account_id : Nat) (mint_balance_db : Decimal)
    (recipient_fallback : Option Account) (mint_id : Nat) (supply : Nat → Nat)
    (now : Int) : Except AppError MintResult × Store :=
  match Amount.new amount with
  | .error _ => (.error (.invalidRequest "Invalid amount"), st)
  | .ok amt =>
    let mint_account := Account.from_db_state mint_account_id SYSTEM_MINT_USER_ID
      "mint_source" mint_balance_db (getCurrentVersion st.events mint_account_id)
    match load_account_with_fallback st recipient_account_id recipient_fallback with
    | none => (.error (.accountNotFound "recipient"), st)
    | some recipient_account =>
      let debit_event : AccountEvent :=
        .moneyDebited mint_account_id amt.value mint_id ("Mint: " ++ reason) now
      match recipient_account.credit amt mint_id ("Received from mint: " ++ reason) now with
      | .error e => (.error e, st)
      | .ok credit_event =>
        let ops : List AggregateOperation :=
          [⟨"Account", mint_account_id, mint_account.version, "MoneyDebited", debit_event⟩,
           ⟨"Account", recipient_account_id, recipient_account.version,
             credit_event.event_type, credit_event⟩]
        match append_atomic_store st ops idempotency_key supply now with
        | (.error _, st1) => (.error (.internal "event store"), st1)
        | (.ok event_ids, st1) =>
          if event_ids.length == 1 && idempotency_key.isSome then
            (.ok ⟨event_ids.headD 0, recipient_user_id, amt.value⟩, st1)
          else
            (.ok ⟨mint_id, recipient_user_id, amt.value⟩, st1)

/-- The inputs of one mint submission that stay fixed across resubmissions;
`mint_ids` and `supply` give the fresh uuids of the i-th submission. -/
structure MintParams where
  key : Nat
  recipient_user_id : Nat
  amount : Decimal
  reason : String
  mint_account_id : Nat
  recipient_account_id : Nat
  mint_balance_db : Decimal
  recipient_fallback : Option Account
  mint_ids : Nat → Nat
  supply : Nat → Nat → Nat
  now : Int

/-- The i-th submission of the same mint command with the same idempotency
key. -/
def mintExecuteOnce (p : MintParams) (i : Nat) (st : Store) :
    Except AppError MintResult × Store :=
  MintHandler.execute st (some p.key) p.recipient_user_id p.amount p.reason
    p.mint_account_id p.recipient_account_id p.mint_balance_db p.recipient_fallback
    (p.mint_ids i) (p.supply i) p.now

/-- `n` successive submissions starting at index `i`, collecting the
responses and threading the store. -/
def mintExecuteN (p : MintParams) : Nat → Nat → Store → List (Except AppError MintResult) × Store
  | _, 0, st => ([], st)
  | i, n + 1, st =>
    let r := mintExecuteOnce p i st
    let rest := mintExecuteN p (i + 1) n r.2
    (r.1 :: rest.1, rest.2)

theorem appendOps_two (key : Option Nat) (supply : Nat → Nat)
    (op0 op1 : AggregateOperation) (events : List EventRow)
    (h0 : getCurrentVersion events op0.aggregate_id = op0.expected_version)
    (h1 : getCurrentVersion (events ++ [⟨supply 0, op0.aggregate_type, op0.aggregate_id,
      op0.expected_version + 1, op0.event_type, op0.event_data, key⟩]) op1.aggregate_id =
      op1.expected_version) :
    appendOps key supply [op0, op1] events 0 [] =
      .ok (events ++
        [⟨supply 0, op0.aggregate_type, op0.aggregate_id, op0.expected_version + 1,
          op0.event_type, op0.event_data, key⟩,
         ⟨supply 1, op1.aggregate_type, op1.aggregate_id, op1.expected_version + 1,
          op1.event_type, op1.event_data, none⟩],
        [supply 0, supply 1]) := by
  unfold appendOps
  rw [if_neg (by rw [h0]; simp)]
  unfold appendOps
  simp only [Nat.zero_add]
  rw [show ((if ((0 : Nat) == 0) = true then key else none) : Option Nat) = key from rfl]
  rw [if_neg (by rw [h1]; simp)]
  unfold appendOps
  rw [show ((if ((1 : Nat) == 0) = true then key else none) : Option Nat) = none from rfl]
  simp

/-- First submission of a mint with a fresh idempotency key: appends the
`MoneyDebited`/`MoneyCredited` pair and answers with the freshly generated
mint id. -/
theorem mint_first_call (p : MintParams) (st0 : Store) (ra : Account)
    (h1 : idemLookup st0.idem p.key = none)
    (h2 : p.mint_account_id ≠ p.recipient_account_id)
    (h3 : Amount.new p.amount = .ok ⟨p.amount⟩)
    (h4 : load_aggregate_account st0.events p.recipient_account_id = some ra)
    (h5 : ra.status = .active)
    (h6 : getCurrentVersion st0.events p.recipient_account_id = ra.version) :
    mintExecuteOnce p 0 st0 =
      (.ok ⟨p.mint_ids 0, p.recipient_user_id, p.amount⟩,
       ⟨st0.events ++
          [⟨p.supply 0 0, "Account", p.mint_account_id,
            getCurrentVersion st0.events p.mint_account_id + 1, "MoneyDebited",
            .moneyDebited p.mint_account_id p.amount (p.mint_ids 0)
              ("Mint: " ++ p.reason) p.now, some p.key⟩,
           ⟨p.supply 0 1, "Account", p.recipient_account_id, ra.version + 1,
            "MoneyCredited",
            .moneyCredited ra.id p.amount (p.mint_ids 0)
              ("Received from mint: " ++ p.reason) p.now, none⟩],
        complete_idempotency_key
          (st0.idem ++ [(p.key, ⟨"", "processing", none, some p.now⟩)])
          p.key (p.supply 0 0)⟩) := by
  unfold mintExecuteOnce MintHandler.execute
  simp only [h3]
  have hload : load_account_with_fallback st0 p.recipient_account_id p.recipient_fallback =
      some ra := by
    unfold load_account_with_fallback
    rw [h4]
  simp only [hload]
  have hcred : ra.credit ⟨p.amount⟩ (p.mint_ids 0)
      ("Received from mint: " ++ p.reason) p.now =
      .ok (.moneyCredited ra.id p.amount (p.mint_ids 0)
        ("Received from mint: " ++ p.reason) p.now) := by
    unfold Account.credit
    rw [if_neg (by rw [h5]; simp)]
    rfl
  simp only [hcred]
  simp only [Account.from_db_state_version]
  have happ : appendOps (some p.key) (p.supply 0)
      [⟨"Account", p.mint_account_id, getCurrentVersion st0.events p.mint_account_id,
        "MoneyDebited", .moneyDebited p.mint_account_id p.amount (p.mint_ids 0)
          ("Mint: " ++ p.reason) p.now⟩,
       ⟨"Account", p.recipient_account_id, ra.version, "MoneyCredited",
        .moneyCredited ra.id p.amount (p.mint_ids 0)
          ("Received from mint: " ++ p.reason) p.now⟩]
      st0.events 0 [] =
      .ok (st0.events ++
        [⟨p.supply 0 0, "Account", p.mint_account_id,
          getCurrentVersion st0.events p.mint_account_id + 1, "MoneyDebited",
          .moneyDebited p.mint_account_id p.amount (p.mint_ids 0)
            ("Mint: " ++ p.reason) p.now, some p.key⟩,
         ⟨p.supply 0 1, "Account", p.recipient_account_id, ra.version + 1,
          "MoneyCredited", .moneyCredited ra.id p.amount (p.mint_ids 0)
            ("Received from mint: " ++ p.reason) p.now, none⟩],
        [p.supply 0 0, p.supply 0 1]) := by
    exact appendOps_two (some p.key) (p.supply 0) _ _ st0.events rfl
      (by
        rw [getCurrentVersion_append_ne st0.events _ p.recipient_account_id h2]
        exact h6)
  have hstore : append_atomic_store st0
      [⟨"Account", p.mint_account_id, getCurrentVersion st0.events p.mint_account_id,
        "MoneyDebited", .moneyDebited p.mint_account_id p.amount (p.mint_ids 0)
          ("Mint: " ++ p.reason) p.now⟩,
       ⟨"Account", p.recipient_account_id, ra.version, "MoneyCredited",
        .moneyCredited ra.id p.amount (p.mint_ids 0)
          ("Received from mint: " ++ p.reason) p.now⟩]
      (some p.key) (p.supply 0) p.now =
      (.ok [p.supply 0 0, p.supply 0 1],
       ⟨st0.events ++
          [⟨p.supply 0 0, "Account", p.mint_account_id,
            getCurrentVersion st0.events p.mint_account_id + 1, "MoneyDebited",
            .moneyDebited p.mint_account_id p.amount (p.mint_ids 0)
              ("Mint: " ++ p.reason) p.now, some p.key⟩,
           ⟨p.supply 0 1, "Account", p.recipient_account_id, ra.version + 1,
            "MoneyCredited", .moneyCredited ra.id p.amount (p.mint_ids 0)
              ("Received from mint: " ++ p.reason) p.now, none⟩],
        complete_idempotency_key
          (st0.idem ++ [(p.key, ⟨"", "processing", none, some p.now⟩)])
          p.key (p.supply 0 0)⟩) := by
    rw [append_atomic_store_eq]
    simp [try_append_atomic, check_idempotency_key, h1, happ]
  simp only [AccountEvent.event_type, Amount.value]
  rw [hstore]
  simp [Amount.value]

/-- Any later submission with the same key, from a store whose idempotency
row is `completed` with a cached event id: short-circuits with that id and
leaves the store unchanged. -/
theorem mint_steady_call (p : MintParams) (st : Store) (i : Nat) (b : Account)
    (row : IdemRow) (eid : Nat)
    (hA : Amount.new p.amount = .ok ⟨p.amount⟩)
    (hlook : idemLookup st.idem p.key = some row)
    (hcompleted : row.processing_status = "completed")
    (hev : row.event_id = some eid)
    (hload : load_account_with_fallback st p.recipient_account_id p.recipient_fallback =
      some b)
    (hstatus : b.status = .active) :
    mintExecuteOnce p i st = (.ok ⟨eid, p.recipient_user_id, p.amount⟩, st) := by
  unfold mintExecuteOnce MintHandler.execute
  simp only [hA, hload]
  have hcred : b.credit ⟨p.amount⟩ (p.mint_ids i)
      ("Received from mint: " ++ p.reason) p.now =
      .ok (.moneyCredited b.id p.amount (p.mint_ids i)
        ("Received from mint: " ++ p.reason) p.now) := by
    unfold Account.credit
    rw [if_neg (by rw [hstatus]; simp)]
    rfl
  simp only [hcred]
  have hstore : ∀ ops, append_atomic_store st ops (some p.key) (p.supply i) p.now =
      (.ok [eid], st) := by
    intro ops
    rw [append_atomic_store_eq]
    have htry : try_append_atomic st ops (some p.key) (p.supply i) p.now =
        (.ok [eid], st) := by
      simp [try_append_atomic, check_idempotency_key, hlook, hcompleted, hev]
    rw [htry]
  rw [hstore]
  simp [Amount.value]

theorem mint_steady_iter (p : MintParams) (st : Store) (b : Account) (row : IdemRow)
    (eid : Nat)
    (hA : Amount.new p.amount = .ok ⟨p.amount⟩)
    (hlook : idemLookup st.idem p.key = some row)
    (hcompleted : row.processing_status = "completed")
    (hev : row.event_id = some eid)
    (hload : load_account_with_fallback st p.recipient_account_id p.recipient_fallback =
      some b)
    (hstatus : b.status = .active) :
    ∀ n i, mintExecuteN p i n st =
      (List.replicate n (.ok ⟨eid, p.recipient_user_id, p.amount⟩), st) := by
  intro n
  induction n with
  | zero =>
    intro i
    rfl
  | succ n ih =>
    intro i
    have honce := mint_steady_call p st i b row eid hA hlook hcompleted hev hload hstatus
    show mintExecuteN p i (n + 1) st = _
    unfold mintExecuteN
    rw [honce]
    dsimp only
    rw [ih (i + 1)]
    rfl

/-- Claim C5 (amended): submitting the same mint command with the same
idempotency key `n + 1` times from a store without that key produces exactly
two new events (the `MoneyDebited`/`MoneyCredited` pair of the first
submission, not one); the first response carries the freshly generated
`mint_id` (which is not an event id), while responses 2..n+1 all carry the
first appended event's id as their `mint_id`. -/
theorem C5_mint_idempotent (p : MintParams) (st0 : Store) (ra : Account) (n : Nat)
    (h1 : idemLookup st0.idem p.key = none)
    (h2 : p.mint_account_id ≠ p.recipient_account_id)
    (h3 : Amount.new p.amount = .ok ⟨p.amount⟩)
    (h4 : load_aggregate_account st0.events p.recipient_account_id = some ra)
    (h5 : ra.status = .active)
    (h6 : getCurrentVersion st0.events p.recipient_account_id = ra.version) :
    (mintExecuteN p 0 (n + 1) st0).2.events =
      st0.events ++
        [⟨p.supply 0 0, "Account", p.mint_account_id,
          getCurrentVersion st0.events p.mint_account_id + 1, "MoneyDebited",
          .moneyDebited p.mint_account_id p.amount (p.mint_ids 0)
            ("Mint: " ++ p.reason) p.now, some p.key⟩,
         ⟨p.supply 0 1, "Account", p.recipient_account_id, ra.version + 1,
          "MoneyCredited", .moneyCredited ra.id p.amount (p.mint_ids 0)
            ("Received from mint: " ++ p.reason) p.now, none⟩] ∧
    (mintExecuteN p 0 (n + 1) st0).1 =
      .ok ⟨p.mint_ids 0, p.recipient_user_id, p.amount⟩ ::
        List.replicate n (.ok ⟨p.supply 0 0, p.recipient_user_id, p.amount⟩) := by
  have hfirst := mint_first_call p st0 ra h1 h2 h3 h4 h5 h6
  have hl0 : idemLookup (st0.idem ++ [(p.key, ⟨"", "processing", none, some p.now⟩)])
      p.key = some ⟨"", "processing", none, some p.now⟩ :=
    idemLookup_append_self st0.idem p.key _ h1
  have hl1 : idemLookup (complete_idempotency_key
      (st0.idem ++ [(p.key, ⟨"", "processing", none, some p.now⟩)])
      p.key (p.supply 0 0)) p.key =
      some ⟨"", "completed", some (p.supply 0 0), some p.now⟩ :=
    idemLookup_complete _ p.key (p.supply 0 0) _ hl0
  have h01 : load_aggregate_account
      (st0.events ++ [⟨p.supply 0 0, "Account", p.mint_account_id,
        getCurrentVersion st0.events p.mint_account_id + 1, "MoneyDebited",
        .moneyDebited p.mint_account_id p.amount (p.mint_ids 0)
          ("Mint: " ++ p.reason) p.now, some p.key⟩])
      p.recipient_account_id = some ra := by
    rw [load_aggregate_account_append_ne st0.events p.recipient_account_id _ h2]
    exact h4
  have hload1 : load_aggregate_account
      (st0.events ++ [⟨p.supply 0 0, "Account", p.mint_account_id,
        getCurrentVersion st0.events p.mint_account_id + 1, "MoneyDebited",
        .moneyDebited p.mint_account_id p.amount (p.mint_ids 0)
          ("Mint: " ++ p.reason) p.now, some p.key⟩,
        ⟨p.supply 0 1, "Account", p.recipient_account_id, ra.version + 1,
          "MoneyCredited", .moneyCredited ra.id p.amount (p.mint_ids 0)
            ("Received from mint: " ++ p.reason) p.now, none⟩])
      p.recipient_account_id =
      some (ra.apply (.moneyCredited ra.id p.amount (p.mint_ids 0)
        ("Received from mint: " ++ p.reason) p.now)) := by
    rw [show st0.events ++ [(⟨p.supply 0 0, "Account", p.mint_account_id,
        getCurrentVersion st0.events p.mint_account_id + 1, "MoneyDebited",
        .moneyDebited p.mint_account_id p.amount (p.mint_ids 0)
          ("Mint: " ++ p.reason) p.now, some p.key⟩ : EventRow),
        ⟨p.supply 0 1, "Account", p.recipient_account_id, ra.version + 1,
          "MoneyCredited", .moneyCredited ra.id p.amount (p.mint_ids 0)
            ("Received from mint: " ++ p.reason) p.now, none⟩] =
      (st0.events ++ [⟨p.supply 0 0, "Account", p.mint_account_id,
        getCurrentVersion st0.events p.mint_account_id + 1, "MoneyDebited",
        .moneyDebited p.mint_account_id p.amount (p.mint_ids 0)
          ("Mint: " ++ p.reason) p.now, some p.key⟩]) ++
      [⟨p.supply 0 1, "Account", p.recipient_account_id, ra.version + 1,
        "MoneyCredited", .moneyCredited ra.id p.amount (p.mint_ids 0)
          ("Received from mint: " ++ p.reason) p.now, none⟩] by simp]
    exact load_aggregate_account_append _ p.recipient_account_id _ rfl ra h01
  have hstat : (ra.apply (.moneyCredited ra.id p.amount (p.mint_ids 0)
      ("Received from mint: " ++ p.reason) p.now)).status = .active := by
    rw [Account.apply_credited_status]
    exact h5
  have hiter := mint_steady_iter p
    ⟨st0.events ++ [⟨p.supply 0 0, "Account", p.mint_account_id,
        getCurrentVersion st0.events p.mint_account_id + 1, "MoneyDebited",
        .moneyDebited p.mint_account_id p.amount (p.mint_ids 0)
          ("Mint: " ++ p.reason) p.now, some p.key⟩,
      ⟨p.supply 0 1, "Account", p.recipient_account_id, ra.version + 1,
        "MoneyCredited", .moneyCredited ra.id p.amount (p.mint_ids 0)
          ("Received from mint: " ++ p.reason) p.now, none⟩],
     complete_idempotency_key
       (st0.idem ++ [(p.key, ⟨"", "processing", none, some p.now⟩)])
       p.key (p.supply 0 0)⟩
    (ra.apply (.moneyCredited ra.id p.amount (p.mint_ids 0)
      ("Received from mint: " ++ p.reason) p.now))
    ⟨"", "completed", some (p.supply 0 0), some p.now⟩ (p.supply 0 0)
    h3 hl1 rfl rfl
    (by
      unfold load_account_with_fallback
      rw [hload1])
    hstat
  have hrun : mintExecuteN p 0 (n + 1) st0 =
      (.ok ⟨p.mint_ids 0, p.recipient_user_id, p.amount⟩ ::
        List.replicate n (.ok ⟨p.supply 0 0, p.recipient_user_id, p.amount⟩),
       ⟨st0.events ++ [⟨p.supply 0 0, "Account", p.mint_account_id,
          getCurrentVersion st0.events p.mint_account_id + 1, "MoneyDebited",
          .moneyDebited p.mint_account_id p.amount (p.mint_ids 0)
            ("Mint: " ++ p.reason) p.now, some p.key⟩,
        ⟨p.supply 0 1, "Account", p.recipient_account_id, ra.version + 1,
          "MoneyCredited", .moneyCredited ra.id p.amount (p.mint_ids 0)
            ("Received from mint: " ++ p.reason) p.now, none⟩],
       complete_idempotency_key
         (st0.idem ++ [(p.key, ⟨"", "processing", none, some p.now⟩)])
         p.key (p.supply 0 0)⟩) := by
    show mintExecuteN p 0 (n + 1) st0 = _
    unfold mintExecuteN
    rw [hfirst]
    dsimp only
    simp only [Nat.zero_add]
    rw [hiter n 1]
  rw [hrun]
  exact ⟨rfl, rfl⟩

/-- Concrete parameters of a repeated mint submission: recipient user 7,
amount 50, idempotency key 9, call i generating mint id `500 + i` and event
ids `1000 + 10*i + j`. -/
def c5Params : MintParams where
  key := 9
  recipient_user_id := 7
  amount := ⟨50, 0⟩
  reason := "x"
  mint_account_id := 1
  recipient_account_id := 2
  mint_balance_db := ⟨0, 0⟩
  recipient_fallback := none
  mint_ids := fun i => 500 + i
  supply := fun i j => 1000 + 10 * i + j
  now := 0

/-- Initial store for the C5 scenario: the recipient wallet (aggregate 2)
has its `AccountCreated` event, nothing else. -/
def c5Store : Store :=
  ⟨[⟨1, "Account", 2, 1, "AccountCreated", .accountCreated 2 7 "user_wallet" 0, none⟩], []⟩

/-- Counterexample to Claim C5 as stated: two submissions of the same mint
command under the same key append two new events (not one), and the two
responses carry different mint ids (500, a fresh uuid, versus 1000, the
first event's id), so not every response refers to the same event id. -/
theorem C5_counterexample :
    (mintExecuteN c5Params 0 2 c5Store).2.events.length = c5Store.events.length + 2 ∧
    (mintExecuteN c5Params 0 2 c5Store).1 =
      [.ok ⟨500, 7, ⟨50, 0⟩⟩, .ok ⟨1000, 7, ⟨50, 0⟩⟩] ∧
    (500 : Nat) ≠ 1000 := by
  refine ⟨by decide, by decide, by decide⟩

/-- Witness for Claim C5: the amended statement instantiated at the concrete
scenario, with the recipient aggregate replayed to its created state. -/
theorem C5_witness :
    (mintExecuteN c5Params 0 2 c5Store).2.events =
      c5Store.events ++
        [⟨1000, "Account", 1, 1, "MoneyDebited",
          .moneyDebited 1 ⟨50, 0⟩ 500 ("Mint: " ++ "x") 0, some 9⟩,
         ⟨1001, "Account", 2, 2, "MoneyCredited",
          .moneyCredited 2 ⟨50, 0⟩ 500 ("Received from mint: " ++ "x") 0, none⟩] ∧
    (mintExecuteN c5Params 0 2 c5Store).1 =
      .ok ⟨500, 7, ⟨50, 0⟩⟩ :: List.replicate 1 (.ok ⟨1000, 7, ⟨50, 0⟩⟩) :=
  C5_mint_idempotent c5Params c5Store
    ⟨2, 7, "user_wallet", Balance.zero, .active, 1, some 0⟩ 1
    rfl (by decide) (by decide) (by decide) rfl (by decide)

/-! ## Audit log hash chain (src/src/audit/mod.rs) -/

/-- Model of an `audit_logs` row with the columns `verify_hash_chain` reads.
`Uuid` ids are `Nat` and are rendered into the hash input through
`toString`, standing in for their hyphenated display form; JSON state
columns are abstracted to their rendered strings. -/
structure AuditRow where
  id : Nat
  sequence_number : Int
  action : String
  request_user_id : Option Nat
  before_state : Option String
  after_state : Option String
  previous_hash : String
  current_hash : String
deriving DecidableEq, Repr

/-- Model of the `hash_input` concatenation in `verify_hash_chain` (audit
mod.rs lines 253-262): `id ‖ seq ‖ action ‖ actor ‖ before ‖ after ‖
previous_hash`, with absent optional columns rendered as empty strings.
Note that `current_hash` is not part of the input. -/
def hash_input (r : AuditRow) : String :=
  toString r.id ++ toString r.sequence_number ++ r.action ++
    (match r.request_user_id with
      | some u => toString u
      | none => "") ++
    r.before_state.getD "" ++ r.after_state.getD "" ++ r.previous_hash

/-- The genesis previous hash: 64 zero hex characters. -/
def genesis_hash : String :=
  "0000000000000000000000000000000000000000000000000000000000000000"

/-- Model of `ChainVerificationResult`. -/
structure ChainVerificationResult where
  is_valid : Bool
  entries_checked : Nat
  first_invalid_entry : Option Nat
  expected_hash : Option String
  actual_hash : Option String
deriving DecidableEq, Repr

/-- The `i64 → u64` cast (`*seq as u64`): two's-complement reinterpretation
modulo 2^64 (spelled as a literal so concrete values reduce). -/
def u64_of_int (i : Int) : Nat := (i % 18446744073709551616).toNat

/-- The entry loop of `verify_hash_chain` (audit mod.rs lines 240-277),
parametrized over the hash function `H` (the `sha2` crate is an external
dependency; every theorem below holds for an arbitrary `H`).  On the first
failing entry it returns `(sequence_number, id, expected, actual)`: linkage
failures report the running previous hash against the stored one, hash
mismatches report the recomputed hash against the stored one. -/
def verify_walk (H : String → String) (previous : String) :
    List AuditRow → Option (Int × Nat × String × String)
  | [] => none
  | r :: rest =>
    if r.previous_hash ≠ previous then
      some (r.sequence_number, r.id, previous, r.previous_hash)
    else
      let calculated := H (hash_input r)
      if calculated ≠ r.current_hash then
        some (r.sequence_number, r.id, calculated, r.current_hash)
      else verify_walk H r.current_hash rest

/-- Model of `AuditLogService::verify_hash_chain` (audit mod.rs lines
212-286): rows come ordered by `sequence_number` (the store keeps them so),
`LIMIT` is applied by `take`, an empty selection is trivially valid, a
failing entry yields `is_valid = false` with `entries_checked` equal to that
entry's sequence number cast to `u64`, and a clean walk yields `is_valid =
true` with `entries_checked` equal to the number of rows inspected. -/
def verify_hash_chain (H : String → String) (rows : List AuditRow)
    (limit : Option Int) : ChainVerificationResult :=
  let lim := limit.getD 1000
  let entries := rows.take lim.toNat
  if entries.isEmpty then ⟨true, 0, none, none, none⟩
  else
    match verify_walk H genesis_hash entries with
    | some (seq, i, expected, actual) =>
      ⟨false, u64_of_int seq, some i, some expected, some actual⟩
    | none => ⟨true, entries.length, none, none, none⟩

/-- A list of rows forms a valid hash chain from `previous`: each row links
to the running hash and stores the recomputed hash of its own fields.  This
is what the storage trigger guarantees for untampered rows (spec §4.5). -/
def valid_chain_from (H : String → String) (previous : String) : List AuditRow → Bool
  | [] => true
  | r :: rest =>
    (r.previous_hash == previous) && (r.current_hash == H (hash_input r)) &&
      valid_chain_from H r.current_hash rest

/-- The running hash after a list of rows. -/
def chain_end (previous : String) : List AuditRow → String
  | [] => previous
  | r :: rest => chain_end r.current_hash rest

theorem verify_walk_valid_segment (H : String → String) (xs : List AuditRow) :
    ∀ (previous : String) (l : List AuditRow),
      valid_chain_from H previous xs = true →
      verify_walk H previous (xs ++ l) = verify_walk H (chain_end previous xs) l := by
  induction xs with
  | nil =>
    intro previous l _
    rfl
  | cons r rest ih =>
    intro previous l h
    have h1 : r.previous_hash = previous := by
      simp [valid_chain_from, Bool.and_eq_true] at h
      exact h.1.1
    have h2 : r.current_hash = H (hash_input r) := by
      simp [valid_chain_from, Bool.and_eq_true] at h
      exact h.1.2
    have h3 : valid_chain_from H r.current_hash rest = true := by
      simp [valid_chain_from, Bool.and_eq_true] at h
      exact h.2
    show verify_walk H previous (r :: (rest ++ l)) =
      verify_walk H (chain_end previous (r :: rest)) l
    rw [show chain_end previous (r :: rest) = chain_end r.current_hash rest from rfl]
    rw [show verify_walk H previous (r :: (rest ++ l)) =
      (if r.previous_hash ≠ previous then
        some (r.sequence_number, r.id, previous, r.previous_hash)
      else if H (hash_input r) ≠ r.current_hash then
        some (r.sequence_number, r.id, H (hash_input r), r.current_hash)
      else verify_walk H r.current_hash (rest ++ l)) from rfl]
    rw [if_neg (by rw [h1]; simp)]
    rw [if_neg (by rw [← h2]; simp)]
    exact ih r.current_hash l h3

theorem valid_chain_split (H : String → String) (xs : List AuditRow) :
    ∀ (previous : String) (r : AuditRow) (ys : List AuditRow),
      valid_chain_from H previous (xs ++ r :: ys) = true →
      valid_chain_from H previous xs = true ∧
      r.previous_hash = chain_end previous xs ∧
      r.current_hash = H (hash_input r) := by
  induction xs with
  | nil =>
    intro previous r ys h
    simp [valid_chain_from, Bool.and_eq_true] at h
    exact ⟨rfl, h.1.1, h.1.2⟩
  | cons q rest ih =>
    intro previous r ys h
    rw [show (q :: rest) ++ r :: ys = q :: (rest ++ r :: ys) from rfl] at h
    simp only [valid_chain_from, Bool.and_eq_true] at h
    obtain ⟨⟨hq1, hq2⟩, hrest⟩ := h
    obtain ⟨ha, hb, hc⟩ := ih q.current_hash r ys hrest
    refine ⟨?_, hb, hc⟩
    simp [valid_chain_from, Bool.and_eq_true, hq1, hq2, ha]

/-- Claim C6 (amended): the verifier walks entries in sequence order checking
linkage and the recomputed hash; for a log of 100 valid entries in which
only `current_hash` of the entry at sequence 50 is overwritten with a value
different from its recomputed hash, `verify_hash_chain(1000)` reports
`is_valid = false` at that entry itself: `first_invalid_entry` is the entry
at sequence 50 (not 51) with `entries_checked = 50` (not 51), the expected
hash being the recomputed one and the actual hash the overwritten value. -/
theorem C6_verify_tamper (H : String → String) (pre post : List AuditRow)
    (r : AuditRow) (t : String)
    (hchain : valid_chain_from H genesis_hash (pre ++ r :: post) = true)
    (hlen : pre.length + 1 + post.length = 100)
    (hpre : pre.length = 49)
    (hseq : r.sequence_number = 50)
    (ht : t ≠ H (hash_input r)) :
    verify_hash_chain H (pre ++ { r with current_hash := t } :: post) (some 1000) =
      ⟨false, 50, some r.id, some (H (hash_input r)), some t⟩ := by
  obtain ⟨hvpre, hprev, _⟩ := valid_chain_split H pre genesis_hash r post hchain
  have hlen2 : (pre ++ { r with current_hash := t } :: post).length = 100 := by
    simp only [List.length_append, List.length_cons]
    omega
  have htake : (pre ++ { r with current_hash := t } :: post).take (1000 : Int).toNat =
      pre ++ { r with current_hash := t } :: post :=
    List.take_of_length_le (by rw [hlen2]; norm_num)
  unfold verify_hash_chain
  dsimp only
  rw [show ((some (1000 : Int)).getD 1000) = (1000 : Int) from rfl]
  rw [htake]
  rw [if_neg (by
    intro hc
    rw [List.isEmpty_iff] at hc
    have := congrArg List.length hc
    rw [hlen2] at this
    simp at this)]
  have hinput : hash_input { r with current_hash := t } = hash_input r := rfl
  have hwalk : verify_walk H genesis_hash (pre ++ { r with current_hash := t } :: post) =
      some (r.sequence_number, r.id, H (hash_input r), t) := by
    rw [verify_walk_valid_segment H pre genesis_hash ({ r with current_hash := t } :: post)
      hvpre]
    unfold verify_walk
    rw [if_neg (by
      show ¬ ({ r with current_hash := t } : AuditRow).previous_hash ≠ chain_end genesis_hash pre
      rw [show ({ r with current_hash := t } : AuditRow).previous_hash = r.previous_hash
        from rfl, hprev]
      simp)]
    rw [hinput]
    rw [if_pos (by
      show H (hash_input r) ≠ ({ r with current_hash := t } : AuditRow).current_hash
      exact fun hc => ht (by rw [hc]))]
  rw [hwalk]
  rw [hseq]
  rfl

/-- A concrete stand-in hash function used to instantiate the
`H`-parametric theorems (the real `sha256_hex` lives in the external `sha2`
crate). -/
def toy_hash (s : String) : String := "h" ++ toString s.length

/-- Build `n` audit rows forming a valid chain under `toy_hash`, with ids
equal to their sequence numbers. -/
def build_rows : Nat → Int → String → List AuditRow
  | 0, _, _ => []
  | n + 1, seq, previous =>
    let base : AuditRow := ⟨seq.toNat, seq, "a", none, none, none, previous, ""⟩
    let row := { base with current_hash := toy_hash (hash_input base) }
    row :: build_rows n (seq + 1) row.current_hash

/-- A valid 100-entry audit log under `toy_hash`. -/
def c6Rows : List AuditRow := build_rows 100 1 genesis_hash

/-- Entries 1..49 of the log. -/
def c6Pre : List AuditRow := c6Rows.take 49

/-- The entry at sequence 50. -/
def c6Row : AuditRow := (c6Rows.drop 49).headD ⟨0, 0, "", none, none, none, "", ""⟩

/-- Entries 51..100 of the log. -/
def c6Post : List AuditRow := c6Rows.drop 50

/-- The log with only entry 50's `current_hash` overwritten. -/
def c6Tampered : List AuditRow := c6Pre ++ { c6Row with current_hash := "beef" } :: c6Post

/-- Counterexample to Claim C6 as stated: on a 100-entry log whose entry at
sequence 50 has its `current_hash` overwritten, the verifier reports the
failure at sequence 50 itself (`entries_checked = 50`,
`first_invalid_entry` = the id of the entry at sequence 50) — not at
sequence 51 with `entries_checked = 51` as the claim states.  Ids equal
sequence numbers in this log, so `some 51` would be the entry at sequence
51. -/
theorem C6_counterexample :
    (verify_hash_chain toy_hash c6Tampered (some 1000)).is_valid = false ∧
    (verify_hash_chain toy_hash c6Tampered (some 1000)).entries_checked = 50 ∧
    (verify_hash_chain toy_hash c6Tampered (some 1000)).entries_checked ≠ 51 ∧
    (verify_hash_chain toy_hash c6Tampered (some 1000)).first_invalid_entry = some 50 ∧
    (verify_hash_chain toy_hash c6Tampered (some 1000)).first_invalid_entry ≠ some 51 := by
  refine ⟨by decide, by decide, by decide, by decide, by decide⟩

/-- Witness for Claim C6: the amended theorem instantiated at the concrete
100-entry log under `toy_hash`. -/
theorem C6_witness :
    valid_chain_from toy_hash genesis_hash (c6Pre ++ c6Row :: c6Post) = true ∧
    c6Pre.length + 1 + c6Post.length = 100 ∧
    c6Pre.length = 49 ∧
    c6Row.sequence_number = 50 ∧
    c6Row.id = 50 ∧
    verify_hash_chain toy_hash (c6Pre ++ { c6Row with current_hash := "beef" } :: c6Post)
      (some 1000) =
      ⟨false, 50, some c6Row.id, some (toy_hash (hash_input c6Row)), some "beef"⟩ :=
  ⟨by decide, by decide, by decide, by decide, by decide,
   C6_verify_tamper toy_hash c6Pre c6Post c6Row "beef"
     (by decide) (by decide) (by decide) (by decide) (by decide)⟩

/-! ## Maintenance jobs: partition rollover (src/src/jobs/mod.rs) -/

/-- Day count of a civil date (model of chrono's `NaiveDate` arithmetic via
the standard days-from-civil algorithm; all uses in this development have
non-negative intermediate values, where truncating and flooring division
agree). -/
def days_from_civil (y m d : Int) : Int :=
  let y2 := if m ≤ 2 then y - 1 else y
  let era := (if 0 ≤ y2 then y2 else y2 - 399) / 400
  let yoe := y2 - era * 400
  let mp := (m + 9) % 12
  let doy := (153 * mp + 2) / 5 + d - 1
  let doe := yoe * 365 + yoe / 4 - yoe / 100 + doy
  era * 146097 + doe - 719468

/-- Model of `days_in_month` (jobs mod.rs lines 313-322): the day difference
between the first of the next month and the first of this month. -/
def days_in_month (year month : Int) : Int :=
  (if month = 12 then days_from_civil (year + 1) 1 1
   else days_from_civil year (month + 1) 1) -
    days_from_civil year month 1

/-- Model of `should_create_partitions` (jobs mod.rs lines 306-310):
`now.day() >= days_in_month - 3`, with the current UTC date passed in as
`(year, month, day)`. -/
def should_create_partitions (year month day : Int) : Bool :=
  decide (days_in_month year month - 3 ≤ day)

/-- Two-digit zero-padded rendering, the `{:02}` format for a month. -/
def pad2 (n : Int) : String :=
  if n < 10 then "0" ++ toString n else toString n

/-- Model of `PartitionResult`. -/
structure PartitionResult where
  partition_suffix : String
  start_date : String
  end_date : String
  partitions_created : List String
deriving DecidableEq, Repr

/-- Model of the pure part of `create_next_month_partitions` (jobs mod.rs
lines 103-159): next-month and month-after arithmetic, the `YYYY_MM`
suffix, the half-open `[first of next month, first of month after)` date
range, and the partition names; the `partition_exists` probes are the two
Boolean parameters. -/
def create_next_month_partitions (year month : Int)
    (events_partition_exists ledger_partition_exists : Bool) : PartitionResult :=
  let next_month := if month = 12 then (year + 1, 1) else (year, month + 1)
  let month_after := if next_month.2 = 12 then (next_month.1 + 1, 1)
    else (next_month.1, next_month.2 + 1)
  let partition_suffix := toString next_month.1 ++ "_" ++ pad2 next_month.2
  let start_date := toString next_month.1 ++ "-" ++ pad2 next_month.2 ++ "-01"
  let end_date := toString month_after.1 ++ "-" ++ pad2 month_after.2 ++ "-01"
  let events_partition := "events_" ++ partition_suffix
  let ledger_partition := "ledger_entries_" ++ partition_suffix
  ⟨partition_suffix, start_date, end_date,
    (if events_partition_exists then [] else [events_partition]) ++
      (if ledger_partition_exists then [] else [ledger_partition])⟩

/-- Claim C8 evaluated at the failing input (code bug): the model reproduces
the source's own `days_in_month` unit tests, yet the trigger fires on
2026-01-28, the fourth-to-last day of a 31-day January (three days
29, 30, 31 still follow), although the code's doc comment and the claim say
it fires exactly during the last 3 days; it also fires on the 27th of
February 2026 (28 days), again a fourth-to-last day.  The partition-naming
half of the claim is correct: the created partitions are
`events_YYYY_MM`/`ledger_entries_YYYY_MM` ranging from the first of the
next month to the first of the month after, including across a year
boundary. -/
theorem C8_partition_trigger_eval :
    days_in_month 2026 1 = 31 ∧
    days_in_month 2026 2 = 28 ∧
    days_in_month 2024 2 = 29 ∧
    days_in_month 2026 4 = 30 ∧
    should_create_partitions 2026 1 27 = false ∧
    should_create_partitions 2026 1 28 = true ∧
    (31 : Int) - 28 = 3 ∧
    should_create_partitions 2026 1 29 = true ∧
    should_create_partitions 2026 2 25 = true ∧
    should_create_partitions 2026 2 24 = false ∧
    create_next_month_partitions 2026 1 false false =
      ⟨"2026_02", "2026-02-01", "2026-03-01", ["events_2026_02", "ledger_entries_2026_02"]⟩ ∧
    create_next_month_partitions 2026 11 false false =
      ⟨"2026_12", "2026-12-01", "2027-01-01", ["events_2026_12", "ledger_entries_2026_12"]⟩ ∧
    create_next_month_partitions 2026 12 false false =
      ⟨"2027_01", "2027-01-01", "2027-02-01", ["events_2027_01", "ledger_entries_2027_01"]⟩ ∧
    create_next_month_partitions 2026 1 true false =
      ⟨"2026_02", "2026-02-01", "2026-03-01", ["ledger_entries_2026_02"]⟩ := by
  refine ⟨by decide, by decide, by decide, by decide, by decide, by decide, by decide,
    by decide, by decide, by decide, by decide, by decide, by decide, by decide⟩

end FinanceATP
